import Mathlib

/-!
Shallow embedding of the syringe dependency-injection engine.

Sources embedded (the complete `package main` program of the repository):
`container.go` (registration builder), `constants.go` (error sentinels), and
the resolution engine of `provider.go` lines 255-489 (`GetService`,
`resolveService`, `callFactory`, `createInstance`, `injectDependencies`,
`CreateScope`, `BuildServiceProvider`).  `provider.go` additionally carries a
second copy of the engine (lines 1-254, `package syringe`) whose
`resolveService`, `callFactory` and `createInstance` are textually identical
to the ones embedded here; that copy differs only in `GetService` and
`injectDependencies`, which re-enter the public locking entry point instead
of the internal resolver and therefore deadlock on the engine's non-reentrant
mutex for any blueprint with an injectable field.  The `package main` copy is
the one that forms a complete program with `container.go` and the one the
design (spec sections 4.4 and 5) describes, so it is the engine embedded and
verified here.

Modelling conventions:
* `reflect.Type` values become `GoType`: an interface kind (the contract
  identities used as cache and registration keys), a pointer-to-struct kind
  carrying its field descriptors, or any other kind.  Struct field types are
  only ever inspected for `Kind() == reflect.Interface`, so a field type is
  either an interface (with its identity) or an opaque non-interface type.
* `interface{}` instance values become `Nat` references; struct instances
  created by the engine live in an explicit heap so that field injection is
  observable.  `reflect.New` is a fresh-reference allocation.
* The mutable world shared by a scope tree (the root's singleton cache, each
  scope's scoped cache, the heap of instances) is one explicit state,
  `ProviderState`; an engine/scope is an index into the list of scoped
  caches.  The per-provider `resolutionStack` field is part of that state,
  exactly as in the source, where every nested resolution during one
  top-level call runs on the same provider value.
* Factories are opaque user functions; the engine only inspects their
  signature shape and, when the shape conforms, their returned
  (value, error) pair, so a factory is modelled by its shape data and its
  fixed result.
* Go's unbounded recursion becomes fuel-indexed recursion; `none` means the
  fuel bound was hit and never corresponds to any behaviour of the source.
-/

namespace Syringe

/-- A struct field's declared type, as far as `injectDependencies` inspects
it: an interface type (with the identity and name resolution would use), or
any non-interface type, which the injector skips. -/
inductive FieldType : Type where
  | iface (id : Nat) (name : String)
  | concrete
deriving DecidableEq, Repr

/-- A `reflect.Type` as used by the engine: interface contracts, pointer-to-
struct blueprint types (with their field descriptors: CanSet flag and field
type), and every other kind. -/
inductive GoType : Type where
  | iface (id : Nat) (name : String)
  | ptrStruct (id : Nat) (name : String) (fields : List (Bool × FieldType))
  | other (id : Nat) (name : String)
deriving DecidableEq, Repr

/-- The reflect.Type.String rendering of a type. -/
def GoType.str : GoType → String
  | .iface _ s => s
  | .ptrStruct _ s _ => s
  | .other _ s => s

/-- The error sentinels of `constants.go`. -/
inductive Sentinel : Type where
  | serviceNotFound
  | circularDependency
  | invalidServiceType
deriving DecidableEq, Repr

/-- A Go error value as the engine produces them: either a
`fmt.Errorf("%w: %s", sentinel, detail)` wrap of one of the sentinels of
`constants.go`, or a plain `fmt.Errorf`/`errors.New` error with no wrapped
sentinel. -/
inductive GoError : Type where
  | wrapped (sentinel : Sentinel) (detail : String)
  | plain (msg : String)
deriving DecidableEq, Repr

/-- Checks errors.Is: does the error wrap the given sentinel? -/
def GoError.isSentinel : GoError → Sentinel → Bool
  | .wrapped s _, t => s == t
  | .plain _, _ => false

/-- Service lifetimes (container.go). -/
inductive ServiceLifetime : Type where
  | Transient
  | Scoped
  | Singleton
deriving DecidableEq, Repr

deriving instance DecidableEq for Except

/-- A registered factory function, modelled by the signature-shape data
`callFactory` inspects through reflection and by the (value, error) result
the call produces when the shape conforms. -/
structure GoFactory : Type where
  numIn : Nat
  in0IsProviderRef : Bool
  numOut : Nat
  out1ImplementsError : Bool
  result : Except GoError Nat
deriving DecidableEq, Repr

/-- One registration record (container.go). `Implementation` is the
normalized `reflect.Type` of the blueprint, `Instance` the pre-built value;
`none` models a nil field. -/
structure DependencyRegistration : Type where
  ServiceType : GoType
  Implementation : Option GoType
  Factory : Option GoFactory
  Instance : Option Nat
  Lifetime : ServiceLifetime
deriving DecidableEq, Repr

/-- The registration builder (container.go). -/
structure Container : Type where
  registrations : List DependencyRegistration
deriving DecidableEq, Repr

/-- Constructor NewContainer. -/
def NewContainer : Container := ⟨[]⟩

/-- Method Container.addService: append one registration record. -/
def Container.addService (c : Container) (serviceType : GoType)
    (implementation : Option GoType) (factory : Option GoFactory)
    (inst : Option Nat) (lifetime : ServiceLifetime) : Container :=
  ⟨c.registrations ++
    [{ ServiceType := serviceType, Implementation := implementation,
       Factory := factory, Instance := inst, Lifetime := lifetime }]⟩

/-- A struct instance on the heap: its dynamic type and its field slots
(`none` is the zero/nil value every slot starts at). -/
structure ObjData : Type where
  ty : GoType
  slots : List (Option Nat)
deriving DecidableEq, Repr

/-- A cache (`map[reflect.Type]interface{}`) as an association list. -/
def cacheLookup (c : List (GoType × Nat)) (t : GoType) : Option Nat :=
  (c.find? (fun e => e.1 == t)).map (fun e => e.2)

/-- Map assignment `m[t] = v`. -/
def cacheInsert (c : List (GoType × Nat)) (t : GoType) (v : Nat) :
    List (GoType × Nat) :=
  (t, v) :: c.filter (fun e => !(e.1 == t))

/-- Heap lookup by reference. -/
def heapLookup (h : List (Nat × ObjData)) (r : Nat) : Option ObjData :=
  (h.find? (fun e => e.1 == r)).map (fun e => e.2)

/-- Heap update by reference. -/
def heapInsert (h : List (Nat × ObjData)) (r : Nat) (o : ObjData) :
    List (Nat × ObjData) :=
  (r, o) :: h.filter (fun e => !(e.1 == r))

/-- The mutable world of one scope tree: the root's singleton cache (shared
by reference with every scope, `CreateScope`), one scoped cache per
engine/scope, the heap of created instances with its allocation counter, and
the resolution stack of the provider performing the current top-level call. -/
structure ProviderState : Type where
  singletonCache : List (GoType × Nat)
  scopedCaches : List (List (GoType × Nat))
  heap : List (Nat × ObjData)
  nextRef : Nat
  resolutionStack : List GoType
deriving DecidableEq, Repr

/-- The scoped cache of engine `eng`. -/
def ProviderState.scopedCacheOf (st : ProviderState) (eng : Nat) :
    List (GoType × Nat) :=
  st.scopedCaches.getD eng []

/-- Replace the scoped cache of engine `eng`. -/
def ProviderState.setScopedCache (st : ProviderState) (eng : Nat)
    (c : List (GoType × Nat)) : ProviderState :=
  { st with scopedCaches := st.scopedCaches.set eng c }

/-- The deferred `p.resolutionStack = p.resolutionStack[:len-1]`. -/
def popStack (st : ProviderState) : ProviderState :=
  { st with resolutionStack := st.resolutionStack.dropLast }

/-- Write a resolved service into field slot `i` of the instance `ref`
(`fieldVal.Set(reflect.ValueOf(service))`). -/
def setSlot (st : ProviderState) (ref i v : Nat) : ProviderState :=
  match heapLookup st.heap ref with
  | some o =>
      { st with heap := heapInsert st.heap ref { o with slots := o.slots.set i (some v) } }
  | none => st

/-- The registration scan of resolveService: from the last element down, first
match wins. -/
def findRegistration (regs : List DependencyRegistration) (serviceType : GoType) :
    Option DependencyRegistration :=
  regs.reverse.find? (fun reg => reg.ServiceType == serviceType)

/-- The diagnostic path built by the circular-dependency branch:
`"A -> B -> ... -> T"`. -/
def pathString (stack : List GoType) (serviceType : GoType) : String :=
  (stack.foldl (fun path p => path ++ p.str ++ " -> ") "") ++ serviceType.str

/-- Function callFactory: check the factory conforms to
`func(p *InjectionProvider) (T, error)` — one parameter of engine-reference
type and two results whose second implements `error` — then call it and
return its error verbatim or its value; any other shape is an
"invalid factory function" error. -/
def callFactory (factory : GoFactory) (serviceType : GoType)
    (st : ProviderState) : ProviderState × Except GoError Nat :=
  if factory.numIn == 1 && factory.in0IsProviderRef &&
      factory.numOut == 2 && factory.out1ImplementsError then
    match factory.result with
    | .error e => (st, .error e)
    | .ok v => (st, .ok v)
  else
    (st, .error (.plain ("invalid factory function for " ++ serviceType.str)))

mutual

/-- Function resolveService (provider.go, identical in both copies): cycle check
against the resolution stack, push with deferred pop, singleton- then
scoped-cache probe, reverse registration scan, strategy dispatch
(instance / factory / blueprint / none), and the lifetime-directed cache
write. -/
def resolveService (regs : List DependencyRegistration) (eng : Nat)
    (fuel : Nat) (serviceType : GoType) (st0 : ProviderState) :
    Option (ProviderState × Except GoError Nat) :=
  match fuel with
  | 0 => none
  | fuel' + 1 =>
    if st0.resolutionStack.contains serviceType then
      some (st0, .error (.wrapped .circularDependency
        (pathString st0.resolutionStack serviceType)))
    else
      let st := { st0 with resolutionStack := st0.resolutionStack ++ [serviceType] }
      match cacheLookup st.singletonCache serviceType with
      | some v => some (popStack st, .ok v)
      | none =>
        match cacheLookup (st.scopedCacheOf eng) serviceType with
        | some v => some (popStack st, .ok v)
        | none =>
          match findRegistration regs serviceType with
          | none =>
              some (popStack st, .error (.wrapped .serviceNotFound serviceType.str))
          | some registration =>
            match
              (match registration.Instance with
               | some v => some (st, Except.ok v)
               | none =>
                 match registration.Factory with
                 | some factory => some (callFactory factory serviceType st)
                 | none =>
                   match registration.Implementation with
                   | some implementation =>
                       createInstance regs eng fuel' implementation st
                   | none =>
                       some (st, .error (.wrapped .invalidServiceType
                         ("no implementation for " ++ serviceType.str))))
            with
            | none => none
            | some (st1, .error e) => some (popStack st1, .error e)
            | some (st1, .ok v) =>
              let st2 :=
                match registration.Lifetime with
                | .Singleton =>
                    { st1 with singletonCache := cacheInsert st1.singletonCache serviceType v }
                | .Scoped =>
                    st1.setScopedCache eng (cacheInsert (st1.scopedCacheOf eng) serviceType v)
                | .Transient => st1
              some (popStack st2, .ok v)
termination_by structural fuel

/-- Function createInstance: require a pointer-to-struct implementation type,
allocate a zero-valued instance (`reflect.New`), run property injection on
it, and return it; any other kind is an error. -/
def createInstance (regs : List DependencyRegistration) (eng : Nat)
    (fuel : Nat) (implementation : GoType) (st : ProviderState) :
    Option (ProviderState × Except GoError Nat) :=
  match fuel with
  | 0 => none
  | fuel' + 1 =>
    match implementation with
    | .ptrStruct _ _ fields =>
      let ref := st.nextRef
      let st1 := { st with
        heap := heapInsert st.heap ref ⟨implementation, List.replicate fields.length none⟩,
        nextRef := st.nextRef + 1 }
      match injectDependencies regs eng fuel' ref fields 0 st1 with
      | none => none
      | some (st2, some e) => some (st2, .error e)
      | some (st2, none) => some (st2, .ok ref)
    | _ =>
        some (st, .error (.plain
          ("implementation must be a pointer to struct: " ++ implementation.str)))
termination_by structural fuel

/-- Function injectDependencies (provider.go lines 460-486): walk the fields in
declaration order; skip non-settable fields, skip non-interface fields; for
an interface field resolve its contract through the internal resolver and
set the field only when resolution reported no error; always return a nil
error. -/
def injectDependencies (regs : List DependencyRegistration) (eng : Nat)
    (fuel : Nat) (ref : Nat) (fields : List (Bool × FieldType)) (i : Nat)
    (st : ProviderState) : Option (ProviderState × Option GoError) :=
  match fuel with
  | 0 => none
  | fuel' + 1 =>
    match fields with
    | [] => some (st, none)
    | (canSet, fieldType) :: rest =>
      if canSet then
        match fieldType with
        | .iface id name =>
          match resolveService regs eng fuel' (.iface id name) st with
          | none => none
          | some (st1, .ok service) =>
              injectDependencies regs eng fuel' ref rest (i + 1) (setSlot st1 ref i service)
          | some (st1, .error _) =>
              injectDependencies regs eng fuel' ref rest (i + 1) st1
        | .concrete => injectDependencies regs eng fuel' ref rest (i + 1) st
      else
        injectDependencies regs eng fuel' ref rest (i + 1) st
termination_by structural fuel

end

/-- Function GetService (provider.go lines 306-321): reset this provider's
resolution stack, then run the internal resolver. -/
def GetService (regs : List DependencyRegistration) (eng : Nat) (fuel : Nat)
    (serviceType : GoType) (st : ProviderState) :
    Option (ProviderState × Except GoError Nat) :=
  resolveService regs eng fuel serviceType { st with resolutionStack := [] }

/-- Function BuildServiceProvider: a root engine (index 0) with empty caches; the
heap and allocation counter seed models values the caller built before
handing them to the container. -/
def BuildServiceProvider (heap : List (Nat × ObjData)) (nextRef : Nat) :
    ProviderState :=
  { singletonCache := [], scopedCaches := [[]], heap := heap,
    nextRef := nextRef, resolutionStack := [] }

/-- Function CreateScope: a new engine sharing the root's singleton cache and
registrations, with a fresh empty scoped cache; returns the new engine's
index. -/
def CreateScope (st : ProviderState) : ProviderState × Nat :=
  ({ st with scopedCaches := st.scopedCaches ++ [[]] }, st.scopedCaches.length)

/-- Field slot `j` of the instance `ref`, `none` when unset (or when the
reference or slot does not exist). -/
def slotOf (st : ProviderState) (ref j : Nat) : Option Nat :=
  match heapLookup st.heap ref with
  | some o => o.slots.getD j none
  | none => none

/-- The dynamic type of the instance `ref`. -/
def tyOf (st : ProviderState) (ref : Nat) : Option GoType :=
  (heapLookup st.heap ref).map (fun o => o.ty)

section AssocLemmas

theorem find?_filter_keep {α β : Type} (p q : α × β → Bool) (l : List (α × β))
    (h : ∀ e, p e = true → q e = true) :
    (l.filter q).find? p = l.find? p := by
  induction l with
  | nil => rfl
  | cons e rest ih =>
    rw [List.filter_cons]
    by_cases hq : q e = true
    · rw [if_pos hq]
      by_cases hp : p e = true
      · rw [List.find?_cons_of_pos _ hp, List.find?_cons_of_pos _ hp]
      · rw [List.find?_cons_of_neg _ (by simpa using hp),
            List.find?_cons_of_neg _ (by simpa using hp), ih]
    · rw [if_neg hq]
      have hp : ¬ p e = true := fun hp => hq (h e hp)
      rw [List.find?_cons_of_neg _ (by simpa using hp), ih]

theorem cacheLookup_insert (c : List (GoType × Nat)) (t : GoType) (v : Nat)
    (u : GoType) :
    cacheLookup (cacheInsert c t v) u = if u = t then some v else cacheLookup c u := by
  unfold cacheInsert cacheLookup
  by_cases h : u = t
  · subst h
    rw [List.find?_cons_of_pos _ (by simp), if_pos rfl]
    rfl
  · rw [List.find?_cons_of_neg _ (by simpa using fun hh : t = u => h hh.symm), if_neg h,
      find?_filter_keep]
    intro e he
    have : e.1 = u := by simpa using he
    simpa [this] using fun hh : u = t => h hh

theorem heapLookup_insert (h : List (Nat × ObjData)) (r : Nat) (o : ObjData)
    (r' : Nat) :
    heapLookup (heapInsert h r o) r' = if r' = r then some o else heapLookup h r' := by
  unfold heapInsert heapLookup
  by_cases hrr : r' = r
  · subst hrr
    rw [List.find?_cons_of_pos _ (by simp), if_pos rfl]
    rfl
  · rw [List.find?_cons_of_neg _ (by simpa using fun hh : r = r' => hrr hh.symm), if_neg hrr,
      find?_filter_keep]
    intro e he
    have : e.1 = r' := by simpa using he
    simpa [this] using fun hh : r' = r => hrr hh

end AssocLemmas

/-- The lifetime-directed cache write at the end of `resolveService`:
Singleton lifetime writes the root singleton cache, Scoped the resolving
engine's scoped cache, Transient neither. -/
def lifetimeWrite (eng : Nat) (ty : GoType) (v : Nat) (lt : ServiceLifetime)
    (st : ProviderState) : ProviderState :=
  match lt with
  | .Singleton => { st with singletonCache := cacheInsert st.singletonCache ty v }
  | .Scoped => st.setScopedCache eng (cacheInsert (st.scopedCacheOf eng) ty v)
  | .Transient => st

section StepLemmas

variable (regs : List DependencyRegistration) (eng fuel : Nat) (ty : GoType)
  (st : ProviderState) (v : Nat)

theorem resolveService_cycle
    (hstk : st.resolutionStack.contains ty = true) :
    resolveService regs eng (fuel + 1) ty st =
      some (st, .error (.wrapped .circularDependency
        (pathString st.resolutionStack ty))) := by
  rw [resolveService]
  simp only [hstk, if_true]

theorem resolveService_hit_singleton
    (hstk : st.resolutionStack.contains ty = false)
    (hs : cacheLookup st.singletonCache ty = some v) :
    resolveService regs eng (fuel + 1) ty st = some (st, .ok v) := by
  rw [resolveService]
  simp only [hstk, Bool.false_eq_true, if_false]
  simp only [hs]
  simp [popStack]

theorem resolveService_hit_scoped
    (hstk : st.resolutionStack.contains ty = false)
    (hs : cacheLookup st.singletonCache ty = none)
    (hc : cacheLookup (st.scopedCacheOf eng) ty = some v) :
    resolveService regs eng (fuel + 1) ty st = some (st, .ok v) := by
  rw [resolveService]
  simp only [hstk, Bool.false_eq_true, if_false]
  simp only [hs, ProviderState.scopedCacheOf]
  simp only [show cacheLookup (st.scopedCaches.getD eng []) ty = some v from hc]
  simp [popStack]

theorem resolveService_notFound
    (hstk : st.resolutionStack.contains ty = false)
    (hs : cacheLookup st.singletonCache ty = none)
    (hc : cacheLookup (st.scopedCacheOf eng) ty = none)
    (hr : findRegistration regs ty = none) :
    resolveService regs eng (fuel + 1) ty st =
      some (st, .error (.wrapped .serviceNotFound ty.str)) := by
  rw [resolveService]
  simp only [hstk, Bool.false_eq_true, if_false]
  simp only [hs, ProviderState.scopedCacheOf]
  simp only [show cacheLookup (st.scopedCaches.getD eng []) ty = none from hc, hr]
  simp [popStack]

theorem resolveService_noStrategy (r : DependencyRegistration)
    (hstk : st.resolutionStack.contains ty = false)
    (hs : cacheLookup st.singletonCache ty = none)
    (hc : cacheLookup (st.scopedCacheOf eng) ty = none)
    (hr : findRegistration regs ty = some r)
    (hi : r.Instance = none) (hf : r.Factory = none) (hm : r.Implementation = none) :
    resolveService regs eng (fuel + 1) ty st =
      some (st, .error (.wrapped .invalidServiceType
        ("no implementation for " ++ ty.str))) := by
  rw [resolveService]
  simp only [hstk, Bool.false_eq_true, if_false]
  simp only [hs, ProviderState.scopedCacheOf]
  simp only [show cacheLookup (st.scopedCaches.getD eng []) ty = none from hc, hr, hi, hf, hm]
  simp [popStack]

theorem resolveService_instance (r : DependencyRegistration)
    (hstk : st.resolutionStack.contains ty = false)
    (hs : cacheLookup st.singletonCache ty = none)
    (hc : cacheLookup (st.scopedCacheOf eng) ty = none)
    (hr : findRegistration regs ty = some r)
    (hi : r.Instance = some v) :
    resolveService regs eng (fuel + 1) ty st =
      some (lifetimeWrite eng ty v r.Lifetime st, .ok v) := by
  rw [resolveService]
  simp only [hstk, Bool.false_eq_true, if_false]
  simp only [hs, ProviderState.scopedCacheOf]
  simp only [show cacheLookup (st.scopedCaches.getD eng []) ty = none from hc, hr, hi]
  cases hl : r.Lifetime <;>
    simp [hl, lifetimeWrite, popStack, ProviderState.setScopedCache,
      ProviderState.scopedCacheOf]

theorem resolveService_factory_ok (r : DependencyRegistration) (f : GoFactory)
    (hstk : st.resolutionStack.contains ty = false)
    (hs : cacheLookup st.singletonCache ty = none)
    (hc : cacheLookup (st.scopedCacheOf eng) ty = none)
    (hr : findRegistration regs ty = some r)
    (hi : r.Instance = none) (hf : r.Factory = some f)
    (hshape : (f.numIn == 1 && f.in0IsProviderRef &&
      f.numOut == 2 && f.out1ImplementsError) = true)
    (hres : f.result = .ok v) :
    resolveService regs eng (fuel + 1) ty st =
      some (lifetimeWrite eng ty v r.Lifetime st, .ok v) := by
  rw [resolveService]
  simp only [hstk, Bool.false_eq_true, if_false]
  simp only [hs, ProviderState.scopedCacheOf]
  simp only [show cacheLookup (st.scopedCaches.getD eng []) ty = none from hc, hr, hi, hf]
  simp only [callFactory, hshape, if_true, hres]
  cases hl : r.Lifetime <;>
    simp [hl, lifetimeWrite, popStack, ProviderState.setScopedCache,
      ProviderState.scopedCacheOf]

theorem resolveService_factory_err (r : DependencyRegistration) (f : GoFactory)
    (e : GoError)
    (hstk : st.resolutionStack.contains ty = false)
    (hs : cacheLookup st.singletonCache ty = none)
    (hc : cacheLookup (st.scopedCacheOf eng) ty = none)
    (hr : findRegistration regs ty = some r)
    (hi : r.Instance = none) (hf : r.Factory = some f)
    (hshape : (f.numIn == 1 && f.in0IsProviderRef &&
      f.numOut == 2 && f.out1ImplementsError) = true)
    (hres : f.result = .error e) :
    resolveService regs eng (fuel + 1) ty st = some (st, .error e) := by
  rw [resolveService]
  simp only [hstk, Bool.false_eq_true, if_false]
  simp only [hs, ProviderState.scopedCacheOf]
  simp only [show cacheLookup (st.scopedCaches.getD eng []) ty = none from hc, hr, hi, hf]
  simp only [callFactory, hshape, if_true, hres]
  simp [popStack]

theorem resolveService_factory_badShape (r : DependencyRegistration) (f : GoFactory)
    (hstk : st.resolutionStack.contains ty = false)
    (hs : cacheLookup st.singletonCache ty = none)
    (hc : cacheLookup (st.scopedCacheOf eng) ty = none)
    (hr : findRegistration regs ty = some r)
    (hi : r.Instance = none) (hf : r.Factory = some f)
    (hshape : (f.numIn == 1 && f.in0IsProviderRef &&
      f.numOut == 2 && f.out1ImplementsError) = false) :
    resolveService regs eng (fuel + 1) ty st =
      some (st, .error (.plain ("invalid factory function for " ++ ty.str))) := by
  rw [resolveService]
  simp only [hstk, Bool.false_eq_true, if_false]
  simp only [hs, ProviderState.scopedCacheOf]
  simp only [show cacheLookup (st.scopedCaches.getD eng []) ty = none from hc, hr, hi, hf]
  simp only [callFactory, hshape, Bool.false_eq_true, if_false]
  simp [popStack]

theorem resolveService_blueprint (r : DependencyRegistration) (impl : GoType)
    (hstk : st.resolutionStack.contains ty = false)
    (hs : cacheLookup st.singletonCache ty = none)
    (hc : cacheLookup (st.scopedCacheOf eng) ty = none)
    (hr : findRegistration regs ty = some r)
    (hi : r.Instance = none) (hf : r.Factory = none)
    (hm : r.Implementation = some impl) :
    resolveService regs eng (fuel + 1) ty st =
      match createInstance regs eng fuel impl
        { st with resolutionStack := st.resolutionStack ++ [ty] } with
      | none => none
      | some (st1, .error e) => some (popStack st1, .error e)
      | some (st1, .ok v') => some (popStack (lifetimeWrite eng ty v' r.Lifetime st1), .ok v') := by
  rw [resolveService]
  simp only [hstk, Bool.false_eq_true, if_false]
  simp only [hs, ProviderState.scopedCacheOf]
  simp only [show cacheLookup (st.scopedCaches.getD eng []) ty = none from hc, hr, hi, hf, hm]
  cases hci : createInstance regs eng fuel impl
      { st with resolutionStack := st.resolutionStack ++ [ty] } with
  | none => rfl
  | some p =>
    obtain ⟨st1, res⟩ := p
    cases res with
    | error e => rfl
    | ok v' =>
      cases hl : r.Lifetime <;>
        simp [hl, lifetimeWrite, ProviderState.setScopedCache, ProviderState.scopedCacheOf]

theorem resolveService_notPtrStruct (r : DependencyRegistration) (impl : GoType)
    (hstk : st.resolutionStack.contains ty = false)
    (hs : cacheLookup st.singletonCache ty = none)
    (hc : cacheLookup (st.scopedCacheOf eng) ty = none)
    (hr : findRegistration regs ty = some r)
    (hi : r.Instance = none) (hf : r.Factory = none)
    (hm : r.Implementation = some impl)
    (hkind : ∀ idt nm fs, impl ≠ .ptrStruct idt nm fs) :
    resolveService regs eng (fuel + 1 + 1) ty st =
      some (st, .error (.plain
        ("implementation must be a pointer to struct: " ++ impl.str))) := by
  rw [resolveService_blueprint regs eng (fuel + 1) ty st r impl hstk hs hc hr hi hf hm]
  cases impl with
  | iface idt nm =>
    rw [createInstance]
    · simp [popStack, GoType.str]
    · exact fun a b c h => GoType.noConfusion h
  | other idt nm =>
    rw [createInstance]
    · simp [popStack, GoType.str]
    · exact fun a b c h => GoType.noConfusion h
  | ptrStruct idt nm fs => exact absurd rfl (hkind idt nm fs)

end StepLemmas

section ScopedCacheLemmas

theorem scopedCacheOf_set_self (st : ProviderState) (eng : Nat)
    (c : List (GoType × Nat)) :
    (st.setScopedCache eng c).scopedCacheOf eng =
      if eng < st.scopedCaches.length then c else [] := by
  simp only [ProviderState.setScopedCache, ProviderState.scopedCacheOf]
  by_cases h : eng < st.scopedCaches.length
  · rw [if_pos h]
    rw [List.getD_eq_getElem?_getD, List.getElem?_set_self' ]
    simp [List.getElem?_eq_getElem h]
  · rw [if_neg h]
    rw [List.set_eq_of_length_le (by omega)]
    rw [List.getD_eq_getElem?_getD, List.getElem?_eq_none (by omega)]
    rfl

theorem scopedCacheOf_set_other (st : ProviderState) (eng e : Nat)
    (c : List (GoType × Nat)) (h : e ≠ eng) :
    (st.setScopedCache eng c).scopedCacheOf e = st.scopedCacheOf e := by
  simp only [ProviderState.setScopedCache, ProviderState.scopedCacheOf]
  rw [List.getD_eq_getElem?_getD, List.getD_eq_getElem?_getD,
    List.getElem?_set_ne (fun hh => h hh.symm)]

end ScopedCacheLemmas

/-- Frame conditions common to all three engine operations, relating the
state at entry to the state at exit: the resolution stack is restored, the
allocation counter only grows, cache entries for every contract currently on
the resolution stack and for every unregistered contract are untouched, the
scoped caches of other engines are untouched, and every previously existing
heap object is untouched (`excl` carves out the one instance the field
injector is allowed to mutate). -/
structure Frame (regs : List DependencyRegistration) (eng : Nat)
    (excl : Option Nat) (st st' : ProviderState) : Prop where
  stack_eq : st'.resolutionStack = st.resolutionStack
  nextRef_le : st.nextRef ≤ st'.nextRef
  scoped_len : st'.scopedCaches.length = st.scopedCaches.length
  stack_sing : ∀ T, T ∈ st.resolutionStack →
    cacheLookup st'.singletonCache T = cacheLookup st.singletonCache T
  stack_scoped : ∀ T, T ∈ st.resolutionStack →
    cacheLookup (st'.scopedCacheOf eng) T = cacheLookup (st.scopedCacheOf eng) T
  unreg_sing : ∀ T, findRegistration regs T = none →
    cacheLookup st'.singletonCache T = cacheLookup st.singletonCache T
  unreg_scoped : ∀ T, findRegistration regs T = none →
    cacheLookup (st'.scopedCacheOf eng) T = cacheLookup (st.scopedCacheOf eng) T
  other_scopes : ∀ e, e ≠ eng → st'.scopedCaches.getD e [] = st.scopedCaches.getD e []
  heap_old : ∀ rf, rf < st.nextRef → excl ≠ some rf →
    heapLookup st'.heap rf = heapLookup st.heap rf

theorem Frame.refl (regs : List DependencyRegistration) (eng : Nat)
    (excl : Option Nat) (st : ProviderState) : Frame regs eng excl st st :=
  ⟨rfl, Nat.le.refl, rfl, fun _ _ => rfl, fun _ _ => rfl, fun _ _ => rfl,
   fun _ _ => rfl, fun _ _ => rfl, fun _ _ _ => rfl⟩

theorem Frame.trans {regs : List DependencyRegistration} {eng : Nat}
    {excl : Option Nat} {st st' st'' : ProviderState}
    (f1 : Frame regs eng excl st st') (f2 : Frame regs eng excl st' st'') :
    Frame regs eng excl st st'' where
  stack_eq := f2.stack_eq.trans f1.stack_eq
  nextRef_le := f1.nextRef_le.trans f2.nextRef_le
  scoped_len := f2.scoped_len.trans f1.scoped_len
  stack_sing T hT :=
    ((f2.stack_sing T (f1.stack_eq ▸ hT)).trans (f1.stack_sing T hT))
  stack_scoped T hT :=
    ((f2.stack_scoped T (f1.stack_eq ▸ hT)).trans (f1.stack_scoped T hT))
  unreg_sing T hT := (f2.unreg_sing T hT).trans (f1.unreg_sing T hT)
  unreg_scoped T hT := (f2.unreg_scoped T hT).trans (f1.unreg_scoped T hT)
  other_scopes e he := (f2.other_scopes e he).trans (f1.other_scopes e he)
  heap_old rf hrf hex :=
    (f2.heap_old rf (Nat.lt_of_lt_of_le hrf f1.nextRef_le) hex).trans
      (f1.heap_old rf hrf hex)

theorem Frame.weaken {regs : List DependencyRegistration} {eng : Nat}
    {excl : Option Nat} {st st' : ProviderState}
    (f : Frame regs eng none st st') : Frame regs eng excl st st' :=
  ⟨f.stack_eq, f.nextRef_le, f.scoped_len, f.stack_sing, f.stack_scoped,
   f.unreg_sing, f.unreg_scoped, f.other_scopes,
   fun rf hrf _ => f.heap_old rf hrf (by simp)⟩

theorem setSlot_frame (regs : List DependencyRegistration) (eng : Nat)
    (st : ProviderState) (ref i v : Nat) :
    Frame regs eng (some ref) st (setSlot st ref i v) := by
  unfold setSlot
  cases h : heapLookup st.heap ref with
  | none => exact Frame.refl regs eng (some ref) st
  | some o =>
    refine ⟨rfl, Nat.le.refl, rfl, fun _ _ => rfl, fun _ _ => rfl,
      fun _ _ => rfl, fun _ _ => rfl, fun _ _ => rfl, fun rf hrf hex => ?_⟩
    have hne : rf ≠ ref := fun hh => hex (by rw [hh])
    simp only [heapLookup_insert]
    rw [if_neg hne]

theorem popStack_lifetimeWrite_push (eng : Nat) (ty : GoType) (v : Nat)
    (lt : ServiceLifetime) (st : ProviderState) :
    popStack (lifetimeWrite eng ty v lt
      { st with resolutionStack := st.resolutionStack ++ [ty] }) =
      lifetimeWrite eng ty v lt st := by
  cases lt <;>
    simp [lifetimeWrite, popStack, ProviderState.setScopedCache,
      ProviderState.scopedCacheOf]

theorem blueprint_exit_frame {regs : List DependencyRegistration} {eng : Nat}
    {ty : GoType} {st st1 : ProviderState} {r : DependencyRegistration}
    (v : Nat) (lt : ServiceLifetime)
    (hb : ty ∉ st.resolutionStack)
    (hreg : findRegistration regs ty = some r)
    (hcf : Frame regs eng none
      { st with resolutionStack := st.resolutionStack ++ [ty] } st1) :
    Frame regs eng none st (popStack (lifetimeWrite eng ty v lt st1)) := by
  have hstk1 : st1.resolutionStack = st.resolutionStack ++ [ty] := hcf.stack_eq
  have hTne : ∀ T, T ∈ st.resolutionStack → T ≠ ty := by
    intro T hT he
    exact hb (he ▸ hT)
  have hUne : ∀ T, findRegistration regs T = none → T ≠ ty := by
    intro T hT he
    rw [he, hreg] at hT
    exact Option.noConfusion hT
  have hmem : ∀ T, T ∈ st.resolutionStack →
      T ∈ ({ st with resolutionStack := st.resolutionStack ++ [ty] } :
        ProviderState).resolutionStack := by
    intro T hT
    simpa using Or.inl hT
  cases lt with
  | Transient =>
    refine ⟨?_, ?_, ?_, ?_, ?_, ?_, ?_, ?_, ?_⟩
    · simp [popStack, lifetimeWrite, hstk1]
    · exact hcf.nextRef_le
    · exact hcf.scoped_len
    · intro T hT
      simpa [popStack, lifetimeWrite] using hcf.stack_sing T (hmem T hT)
    · intro T hT
      simpa [popStack, lifetimeWrite, ProviderState.scopedCacheOf]
        using hcf.stack_scoped T (hmem T hT)
    · intro T hT
      simpa [popStack, lifetimeWrite] using hcf.unreg_sing T hT
    · intro T hT
      simpa [popStack, lifetimeWrite, ProviderState.scopedCacheOf]
        using hcf.unreg_scoped T hT
    · intro e he
      simpa [popStack, lifetimeWrite] using hcf.other_scopes e he
    · intro rf hrf hex
      simpa [popStack, lifetimeWrite] using hcf.heap_old rf hrf hex
  | Singleton =>
    refine ⟨?_, ?_, ?_, ?_, ?_, ?_, ?_, ?_, ?_⟩
    · simp [popStack, lifetimeWrite, hstk1]
    · exact hcf.nextRef_le
    · exact hcf.scoped_len
    · intro T hT
      have h1 := hcf.stack_sing T (hmem T hT)
      simp only [popStack, lifetimeWrite]
      rw [cacheLookup_insert]
      rw [if_neg (hTne T hT)]
      simpa using h1
    · intro T hT
      simpa [popStack, lifetimeWrite, ProviderState.scopedCacheOf]
        using hcf.stack_scoped T (hmem T hT)
    · intro T hT
      have h1 := hcf.unreg_sing T hT
      simp only [popStack, lifetimeWrite]
      rw [cacheLookup_insert]
      rw [if_neg (hUne T hT)]
      simpa using h1
    · intro T hT
      simpa [popStack, lifetimeWrite, ProviderState.scopedCacheOf]
        using hcf.unreg_scoped T hT
    · intro e he
      simpa [popStack, lifetimeWrite] using hcf.other_scopes e he
    · intro rf hrf hex
      simpa [popStack, lifetimeWrite] using hcf.heap_old rf hrf hex
  | Scoped =>
    have hlen : st1.scopedCaches.length = st.scopedCaches.length := hcf.scoped_len
    refine ⟨?_, ?_, ?_, ?_, ?_, ?_, ?_, ?_, ?_⟩
    · simp [popStack, lifetimeWrite, ProviderState.setScopedCache, hstk1]
    · exact hcf.nextRef_le
    · simp only [popStack, lifetimeWrite, ProviderState.setScopedCache]
      simpa using hlen
    · intro T hT
      simpa [popStack, lifetimeWrite, ProviderState.setScopedCache]
        using hcf.stack_sing T (hmem T hT)
    · intro T hT
      have hin := hcf.stack_scoped T (hmem T hT)
      simp only [popStack, lifetimeWrite]
      have hrw : (ProviderState.setScopedCache st1 eng
          (cacheInsert (st1.scopedCacheOf eng) ty v)).scopedCacheOf eng =
          if eng < st1.scopedCaches.length then
            cacheInsert (st1.scopedCacheOf eng) ty v else [] :=
        scopedCacheOf_set_self st1 eng _
      show cacheLookup ((ProviderState.setScopedCache st1 eng
          (cacheInsert (st1.scopedCacheOf eng) ty v)).scopedCacheOf eng) T = _
      rw [hrw]
      by_cases hel : eng < st1.scopedCaches.length
      · rw [if_pos hel, cacheLookup_insert, if_neg (hTne T hT)]
        simpa [ProviderState.scopedCacheOf] using hin
      · rw [if_neg hel]
        have h1 : st.scopedCacheOf eng = [] := by
          simp only [ProviderState.scopedCacheOf]
          rw [List.getD_eq_getElem?_getD, List.getElem?_eq_none (by omega)]
          rfl
        simp [h1, cacheLookup]
    · intro T hT
      simpa [popStack, lifetimeWrite, ProviderState.setScopedCache]
        using hcf.unreg_sing T hT
    · intro T hT
      have hin := hcf.unreg_scoped T hT
      simp only [popStack, lifetimeWrite]
      have hrw : (ProviderState.setScopedCache st1 eng
          (cacheInsert (st1.scopedCacheOf eng) ty v)).scopedCacheOf eng =
          if eng < st1.scopedCaches.length then
            cacheInsert (st1.scopedCacheOf eng) ty v else [] :=
        scopedCacheOf_set_self st1 eng _
      show cacheLookup ((ProviderState.setScopedCache st1 eng
          (cacheInsert (st1.scopedCacheOf eng) ty v)).scopedCacheOf eng) T = _
      rw [hrw]
      by_cases hel : eng < st1.scopedCaches.length
      · rw [if_pos hel, cacheLookup_insert, if_neg (hUne T hT)]
        simpa [ProviderState.scopedCacheOf] using hin
      · rw [if_neg hel]
        have h1 : st.scopedCacheOf eng = [] := by
          simp only [ProviderState.scopedCacheOf]
          rw [List.getD_eq_getElem?_getD, List.getElem?_eq_none (by omega)]
          rfl
        simp [h1, cacheLookup]
    · intro e he
      have h1 := hcf.other_scopes e he
      have h2 : (ProviderState.setScopedCache st1 eng
          (cacheInsert (st1.scopedCacheOf eng) ty v)).scopedCacheOf e =
          st1.scopedCacheOf e := scopedCacheOf_set_other st1 eng e _ he
      simp only [ProviderState.scopedCacheOf] at h2
      show (popStack (lifetimeWrite eng ty v ServiceLifetime.Scoped st1)).scopedCaches.getD e [] = _
      rw [show (popStack (lifetimeWrite eng ty v ServiceLifetime.Scoped st1)).scopedCaches =
        (ProviderState.setScopedCache st1 eng
          (cacheInsert (st1.scopedCacheOf eng) ty v)).scopedCaches from rfl]
      rw [show (ProviderState.setScopedCache st1 eng
          (cacheInsert (st1.scopedCacheOf eng) ty v)).scopedCaches.getD e [] =
          st1.scopedCaches.getD e [] from h2]
      exact h1
    · intro rf hrf hex
      simpa [popStack, lifetimeWrite, ProviderState.setScopedCache]
        using hcf.heap_old rf hrf hex

theorem write_exit_frame {regs : List DependencyRegistration} {eng : Nat}
    {ty : GoType} {st : ProviderState} {r : DependencyRegistration}
    (v : Nat) (lt : ServiceLifetime)
    (hb : ty ∉ st.resolutionStack)
    (hreg : findRegistration regs ty = some r) :
    Frame regs eng none st (lifetimeWrite eng ty v lt st) := by
  have h1 := @blueprint_exit_frame regs eng ty st
    { st with resolutionStack := st.resolutionStack ++ [ty] } r v lt hb hreg
    (Frame.refl regs eng none { st with resolutionStack := st.resolutionStack ++ [ty] })
  rwa [popStack_lifetimeWrite_push] at h1

section UnfoldLemmas

variable (regs : List DependencyRegistration) (eng fuel : Nat)

theorem resolveService_zero (ty : GoType) (st : ProviderState) :
    resolveService regs eng 0 ty st = none := rfl

theorem createInstance_zero (impl : GoType) (st : ProviderState) :
    createInstance regs eng 0 impl st = none := rfl

theorem injectDependencies_zero (ref : Nat) (fields : List (Bool × FieldType))
    (i : Nat) (st : ProviderState) :
    injectDependencies regs eng 0 ref fields i st = none := rfl

theorem createInstance_ptrStruct (idt : Nat) (nm : String)
    (fields : List (Bool × FieldType)) (st : ProviderState) :
    createInstance regs eng (fuel + 1) (.ptrStruct idt nm fields) st =
      match injectDependencies regs eng fuel st.nextRef fields 0
          { st with
            heap := heapInsert st.heap st.nextRef
              ⟨.ptrStruct idt nm fields, List.replicate fields.length none⟩,
            nextRef := st.nextRef + 1 } with
      | none => none
      | some (st2, some e) => some (st2, .error e)
      | some (st2, none) => some (st2, .ok st.nextRef) := rfl

theorem createInstance_iface (idt : Nat) (nm : String) (st : ProviderState) :
    createInstance regs eng (fuel + 1) (.iface idt nm) st =
      some (st, .error (.plain
        ("implementation must be a pointer to struct: " ++ nm))) := rfl

theorem createInstance_other (idt : Nat) (nm : String) (st : ProviderState) :
    createInstance regs eng (fuel + 1) (.other idt nm) st =
      some (st, .error (.plain
        ("implementation must be a pointer to struct: " ++ nm))) := rfl

theorem injectDependencies_nil (ref i : Nat) (st : ProviderState) :
    injectDependencies regs eng (fuel + 1) ref [] i st = some (st, none) := rfl

theorem injectDependencies_cons (ref : Nat) (canSet : Bool) (fty : FieldType)
    (rest : List (Bool × FieldType)) (i : Nat) (st : ProviderState) :
    injectDependencies regs eng (fuel + 1) ref ((canSet, fty) :: rest) i st =
      if canSet then
        match fty with
        | .iface idt nm =>
          match resolveService regs eng fuel (.iface idt nm) st with
          | none => none
          | some (st1, .ok service) =>
              injectDependencies regs eng fuel ref rest (i + 1) (setSlot st1 ref i service)
          | some (st1, .error _) =>
              injectDependencies regs eng fuel ref rest (i + 1) st1
        | .concrete => injectDependencies regs eng fuel ref rest (i + 1) st
      else
        injectDependencies regs eng fuel ref rest (i + 1) st := rfl

theorem injectDependencies_cons_unset (ref : Nat) (fty : FieldType)
    (rest : List (Bool × FieldType)) (i : Nat) (st : ProviderState) :
    injectDependencies regs eng (fuel + 1) ref ((false, fty) :: rest) i st =
      injectDependencies regs eng fuel ref rest (i + 1) st := rfl

theorem injectDependencies_cons_concrete (ref : Nat)
    (rest : List (Bool × FieldType)) (i : Nat) (st : ProviderState) :
    injectDependencies regs eng (fuel + 1) ref ((true, .concrete) :: rest) i st =
      injectDependencies regs eng fuel ref rest (i + 1) st := rfl

theorem injectDependencies_cons_iface (ref idt : Nat) (nm : String)
    (rest : List (Bool × FieldType)) (i : Nat) (st : ProviderState) :
    injectDependencies regs eng (fuel + 1) ref ((true, .iface idt nm) :: rest) i st =
      match resolveService regs eng fuel (.iface idt nm) st with
      | none => none
      | some (st1, .ok service) =>
          injectDependencies regs eng fuel ref rest (i + 1) (setSlot st1 ref i service)
      | some (st1, .error _) =>
          injectDependencies regs eng fuel ref rest (i + 1) st1 := rfl

end UnfoldLemmas

theorem Frame.trans_excl {regs : List DependencyRegistration} {eng r0 : Nat}
    {st st1 st2 : ProviderState}
    (f1 : Frame regs eng none st st1) (f2 : Frame regs eng (some r0) st1 st2)
    (hr0 : st.nextRef ≤ r0) : Frame regs eng none st st2 where
  stack_eq := f2.stack_eq.trans f1.stack_eq
  nextRef_le := f1.nextRef_le.trans f2.nextRef_le
  scoped_len := f2.scoped_len.trans f1.scoped_len
  stack_sing T hT :=
    (f2.stack_sing T (f1.stack_eq ▸ hT)).trans (f1.stack_sing T hT)
  stack_scoped T hT :=
    (f2.stack_scoped T (f1.stack_eq ▸ hT)).trans (f1.stack_scoped T hT)
  unreg_sing T hT := (f2.unreg_sing T hT).trans (f1.unreg_sing T hT)
  unreg_scoped T hT := (f2.unreg_scoped T hT).trans (f1.unreg_scoped T hT)
  other_scopes e he := (f2.other_scopes e he).trans (f1.other_scopes e he)
  heap_old rf hrf _ := by
    have h2 := f2.heap_old rf (Nat.lt_of_lt_of_le hrf f1.nextRef_le)
      (by intro hh; injection hh with hh1; omega)
    have h1 := f1.heap_old rf hrf (by simp)
    exact h2.trans h1

theorem alloc_frame (regs : List DependencyRegistration) (eng : Nat)
    (st : ProviderState) (o : ObjData) :
    Frame regs eng none st
      { st with heap := heapInsert st.heap st.nextRef o,
                nextRef := st.nextRef + 1 } := by
  refine ⟨rfl, Nat.le_succ st.nextRef, rfl, fun _ _ => rfl, fun _ _ => rfl,
    fun _ _ => rfl, fun _ _ => rfl, fun _ _ => rfl, fun rf hrf _ => ?_⟩
  show heapLookup (heapInsert st.heap st.nextRef o) rf = heapLookup st.heap rf
  rw [heapLookup_insert]
  rw [if_neg (by omega)]

/-- The central invariant: every run of the three engine operations restores
the resolution stack, only grows the allocation counter, leaves cache
entries of in-flight and unregistered contracts alone, leaves other scopes'
caches alone, and mutates no pre-existing heap object (except, for the
injector, the instance it is filling); moreover `createInstance` returns the
freshly allocated reference and `injectDependencies` always reports a nil
error. -/
theorem frame_main (regs : List DependencyRegistration) (eng : Nat) :
    ∀ fuel : Nat,
    (∀ ty st st' res, resolveService regs eng fuel ty st = some (st', res) →
       Frame regs eng none st st') ∧
    (∀ impl st st' res, createInstance regs eng fuel impl st = some (st', res) →
       Frame regs eng none st st' ∧
       ∀ v, res = .ok v → v = st.nextRef ∧ st.nextRef < st'.nextRef) ∧
    (∀ ref fields i st st' err,
       injectDependencies regs eng fuel ref fields i st = some (st', err) →
       Frame regs eng (some ref) st st' ∧ err = none) := by
  intro fuel
  induction fuel using Nat.strong_induction_on with
  | _ fuel IH =>
    cases fuel with
    | zero =>
      refine ⟨?_, ?_, ?_⟩
      · intro ty st st' res h
        rw [resolveService_zero] at h
        exact Option.noConfusion h
      · intro impl st st' res h
        rw [createInstance_zero] at h
        exact Option.noConfusion h
      · intro ref fields i st st' err h
        rw [injectDependencies_zero] at h
        exact Option.noConfusion h
    | succ fuel =>
      obtain ⟨IHr, IHc, IHi⟩ := IH fuel (Nat.lt_succ_self fuel)
      refine ⟨?_, ?_, ?_⟩
      · -- resolveService
        intro ty st st' res h
        cases hb : st.resolutionStack.contains ty with
        | true =>
          rw [resolveService_cycle regs eng fuel ty st hb] at h
          simp only [Option.some.injEq, Prod.mk.injEq] at h
          obtain ⟨h1, h2⟩ := h
          subst h1
          exact Frame.refl regs eng none st
        | false =>
          have hnot : ty ∉ st.resolutionStack := by simpa using hb
          cases hsing : cacheLookup st.singletonCache ty with
          | some v =>
            rw [resolveService_hit_singleton regs eng fuel ty st v hb hsing] at h
            simp only [Option.some.injEq, Prod.mk.injEq] at h
            obtain ⟨h1, h2⟩ := h
            subst h1
            exact Frame.refl regs eng none st
          | none =>
            cases hscop : cacheLookup (st.scopedCacheOf eng) ty with
            | some v =>
              rw [resolveService_hit_scoped regs eng fuel ty st v hb hsing hscop] at h
              simp only [Option.some.injEq, Prod.mk.injEq] at h
              obtain ⟨h1, h2⟩ := h
              subst h1
              exact Frame.refl regs eng none st
            | none =>
              cases hreg : findRegistration regs ty with
              | none =>
                rw [resolveService_notFound regs eng fuel ty st hb hsing hscop hreg] at h
                simp only [Option.some.injEq, Prod.mk.injEq] at h
                obtain ⟨h1, h2⟩ := h
                subst h1
                exact Frame.refl regs eng none st
              | some r =>
                cases hinst : r.Instance with
                | some v =>
                  rw [resolveService_instance regs eng fuel ty st v r hb hsing hscop
                    hreg hinst] at h
                  simp only [Option.some.injEq, Prod.mk.injEq] at h
                  obtain ⟨h1, h2⟩ := h
                  subst h1
                  exact write_exit_frame v r.Lifetime hnot hreg
                | none =>
                  cases hfact : r.Factory with
                  | some fct =>
                    cases hsh : (fct.numIn == 1 && fct.in0IsProviderRef &&
                        fct.numOut == 2 && fct.out1ImplementsError) with
                    | true =>
                      cases hres : fct.result with
                      | ok v =>
                        rw [resolveService_factory_ok regs eng fuel ty st v r fct hb
                          hsing hscop hreg hinst hfact hsh hres] at h
                        simp only [Option.some.injEq, Prod.mk.injEq] at h
                        obtain ⟨h1, h2⟩ := h
                        subst h1
                        exact write_exit_frame v r.Lifetime hnot hreg
                      | error e =>
                        rw [resolveService_factory_err regs eng fuel ty st r fct e hb
                          hsing hscop hreg hinst hfact hsh hres] at h
                        simp only [Option.some.injEq, Prod.mk.injEq] at h
                        obtain ⟨h1, h2⟩ := h
                        subst h1
                        exact Frame.refl regs eng none st
                    | false =>
                      rw [resolveService_factory_badShape regs eng fuel ty st r fct hb
                        hsing hscop hreg hinst hfact hsh] at h
                      simp only [Option.some.injEq, Prod.mk.injEq] at h
                      obtain ⟨h1, h2⟩ := h
                      subst h1
                      exact Frame.refl regs eng none st
                  | none =>
                    cases himpl : r.Implementation with
                    | some impl =>
                      rw [resolveService_blueprint regs eng fuel ty st r impl hb hsing
                        hscop hreg hinst hfact himpl] at h
                      cases hci : createInstance regs eng fuel impl
                          { st with resolutionStack := st.resolutionStack ++ [ty] } with
                      | none =>
                        rw [hci] at h
                        exact Option.noConfusion h
                      | some p =>
                        obtain ⟨st1, res1⟩ := p
                        rw [hci] at h
                        have hcf := (IHc impl _ st1 res1 hci).1
                        cases res1 with
                        | error e =>
                          simp only [Option.some.injEq, Prod.mk.injEq] at h
                          obtain ⟨h1, h2⟩ := h
                          subst h1
                          exact blueprint_exit_frame 0 ServiceLifetime.Transient hnot hreg hcf
                        | ok v =>
                          simp only [Option.some.injEq, Prod.mk.injEq] at h
                          obtain ⟨h1, h2⟩ := h
                          subst h1
                          exact blueprint_exit_frame v r.Lifetime hnot hreg hcf
                    | none =>
                      rw [resolveService_noStrategy regs eng fuel ty st r hb hsing hscop
                        hreg hinst hfact himpl] at h
                      simp only [Option.some.injEq, Prod.mk.injEq] at h
                      obtain ⟨h1, h2⟩ := h
                      subst h1
                      exact Frame.refl regs eng none st
      · -- createInstance
        intro impl st st' res h
        cases impl with
        | iface idt nm =>
          rw [createInstance_iface] at h
          simp only [Option.some.injEq, Prod.mk.injEq] at h
          obtain ⟨h1, h2⟩ := h
          subst h1
          refine ⟨Frame.refl regs eng none st, ?_⟩
          intro v hv
          rw [← h2] at hv
          exact Except.noConfusion hv
        | other idt nm =>
          rw [createInstance_other] at h
          simp only [Option.some.injEq, Prod.mk.injEq] at h
          obtain ⟨h1, h2⟩ := h
          subst h1
          refine ⟨Frame.refl regs eng none st, ?_⟩
          intro v hv
          rw [← h2] at hv
          exact Except.noConfusion hv
        | ptrStruct idt nm fields =>
          rw [createInstance_ptrStruct] at h
          cases hin : injectDependencies regs eng fuel st.nextRef fields 0
              { st with
                heap := heapInsert st.heap st.nextRef
                  ⟨.ptrStruct idt nm fields, List.replicate fields.length none⟩,
                nextRef := st.nextRef + 1 } with
          | none =>
            rw [hin] at h
            exact Option.noConfusion h
          | some p =>
            obtain ⟨st2, errv⟩ := p
            rw [hin] at h
            have hIi := IHi st.nextRef fields 0 _ st2 errv hin
            cases errv with
            | some e =>
              exact absurd hIi.2 (by simp)
            | none =>
              simp only [Option.some.injEq, Prod.mk.injEq] at h
              obtain ⟨h1, h2⟩ := h
              subst h1
              have hfr : Frame regs eng none st st2 :=
                Frame.trans_excl (alloc_frame regs eng st _) hIi.1 (Nat.le_refl _)
              refine ⟨hfr, ?_⟩
              intro v hv
              rw [← h2] at hv
              injection hv with hv1
              constructor
              · exact hv1.symm
              · have h3 : st.nextRef + 1 ≤ st2.nextRef := hIi.1.nextRef_le
                omega
      · -- injectDependencies
        intro ref fields i st st' err h
        cases fields with
        | nil =>
          rw [injectDependencies_nil] at h
          simp only [Option.some.injEq, Prod.mk.injEq] at h
          obtain ⟨h1, h2⟩ := h
          subst h1
          exact ⟨Frame.refl regs eng (some ref) st, h2.symm⟩
        | cons fld rest =>
          obtain ⟨canSet, fty⟩ := fld
          cases canSet with
          | false =>
            rw [injectDependencies_cons_unset] at h
            exact IHi ref rest (i + 1) st st' err h
          | true =>
            cases fty with
            | concrete =>
              rw [injectDependencies_cons_concrete] at h
              exact IHi ref rest (i + 1) st st' err h
            | iface idt nm =>
              rw [injectDependencies_cons_iface] at h
              cases hres : resolveService regs eng fuel (.iface idt nm) st with
              | none =>
                rw [hres] at h
                exact Option.noConfusion h
              | some q =>
                obtain ⟨stA, resA⟩ := q
                rw [hres] at h
                have F1 := IHr (.iface idt nm) st stA resA hres
                cases resA with
                | ok v =>
                  have F2 := setSlot_frame regs eng stA ref i v
                  have F3 := IHi ref rest (i + 1) (setSlot stA ref i v) st' err h
                  exact ⟨Frame.trans (Frame.weaken F1) (Frame.trans F2 F3.1), F3.2⟩
                | error e =>
                  have F3 := IHi ref rest (i + 1) stA st' err h
                  exact ⟨Frame.trans (Frame.weaken F1) F3.1, F3.2⟩

section SmallStateLemmas

theorem lifetimeWrite_nextRef (eng : Nat) (ty : GoType) (v : Nat)
    (lt : ServiceLifetime) (st : ProviderState) :
    (lifetimeWrite eng ty v lt st).nextRef = st.nextRef := by
  cases lt <;> rfl

theorem lifetimeWrite_heap (eng : Nat) (ty : GoType) (v : Nat)
    (lt : ServiceLifetime) (st : ProviderState) :
    (lifetimeWrite eng ty v lt st).heap = st.heap := by
  cases lt <;> rfl

theorem setSlot_nextRef (st : ProviderState) (ref i v : Nat) :
    (setSlot st ref i v).nextRef = st.nextRef := by
  unfold setSlot
  cases heapLookup st.heap ref <;> rfl

theorem setSlot_singletonCache (st : ProviderState) (ref i v : Nat) :
    (setSlot st ref i v).singletonCache = st.singletonCache := by
  unfold setSlot
  cases heapLookup st.heap ref <;> rfl

theorem setSlot_scopedCaches (st : ProviderState) (ref i v : Nat) :
    (setSlot st ref i v).scopedCaches = st.scopedCaches := by
  unfold setSlot
  cases heapLookup st.heap ref <;> rfl

theorem slotOf_eq_of_heapLookup {st st' : ProviderState} {ref : Nat}
    (h : heapLookup st'.heap ref = heapLookup st.heap ref) (j : Nat) :
    slotOf st' ref j = slotOf st ref j := by
  unfold slotOf
  rw [h]

theorem heapLookup_setSlot (st : ProviderState) (ref i v r' : Nat) :
    heapLookup (setSlot st ref i v).heap r' =
      if r' = ref then
        Option.map (fun o => { o with slots := o.slots.set i (some v) })
          (heapLookup st.heap ref)
      else heapLookup st.heap r' := by
  unfold setSlot
  cases hl : heapLookup st.heap ref with
  | none =>
    simp only [hl, Option.map_none']
    by_cases hr : r' = ref
    · rw [if_pos hr, hr, hl]
    · rw [if_neg hr]
  | some o =>
    simp only [hl, Option.map_some']
    show heapLookup (heapInsert st.heap ref _) r' = _
    rw [heapLookup_insert]

theorem slotOf_setSlot_ne (st : ProviderState) (ref i v j : Nat) (hne : j ≠ i) :
    slotOf (setSlot st ref i v) ref j = slotOf st ref j := by
  unfold slotOf
  rw [heapLookup_setSlot, if_pos rfl]
  cases hl : heapLookup st.heap ref with
  | none => simp [hl]
  | some o =>
    simp only [hl, Option.map_some']
    show (o.slots.set i (some v)).getD j none = o.slots.getD j none
    rw [List.getD_eq_getElem?_getD, List.getD_eq_getElem?_getD,
      List.getElem?_set_ne (fun hh => hne hh.symm)]

theorem getD_replicate_none (n j : Nat) :
    (List.replicate n (none : Option Nat)).getD j none = none := by
  induction n generalizing j with
  | zero => cases j <;> rfl
  | succ n ih =>
    cases j with
    | zero => rfl
    | succ j => simp [List.replicate, ih j]

end SmallStateLemmas

/-- Cache routing: when a cache-missed contract with a registration resolves
successfully, the produced instance lands in the root singleton cache for
Singleton lifetime, in the resolving engine's scoped cache for Scoped
lifetime, and in neither cache for Transient lifetime. -/
theorem resolveService_writes (regs : List DependencyRegistration)
    (eng fuel : Nat) (ty : GoType) (st st' : ProviderState) (v : Nat)
    (r : DependencyRegistration)
    (hb : st.resolutionStack.contains ty = false)
    (hs : cacheLookup st.singletonCache ty = none)
    (hc : cacheLookup (st.scopedCacheOf eng) ty = none)
    (hr : findRegistration regs ty = some r)
    (h : resolveService regs eng (fuel + 1) ty st = some (st', .ok v)) :
    (r.Lifetime = .Singleton →
       cacheLookup st'.singletonCache ty = some v ∧
       cacheLookup (st'.scopedCacheOf eng) ty = none) ∧
    (r.Lifetime = .Scoped →
       cacheLookup st'.singletonCache ty = none ∧
       (eng < st.scopedCaches.length →
         cacheLookup (st'.scopedCacheOf eng) ty = some v)) ∧
    (r.Lifetime = .Transient →
       cacheLookup st'.singletonCache ty = none ∧
       cacheLookup (st'.scopedCacheOf eng) ty = none) := by
  have main : ∀ st1 : ProviderState,
      cacheLookup st1.singletonCache ty = none →
      cacheLookup (st1.scopedCacheOf eng) ty = none →
      st1.scopedCaches.length = st.scopedCaches.length →
      (r.Lifetime = .Singleton →
        cacheLookup (lifetimeWrite eng ty v r.Lifetime st1).singletonCache ty = some v ∧
        cacheLookup ((lifetimeWrite eng ty v r.Lifetime st1).scopedCacheOf eng) ty = none) ∧
      (r.Lifetime = .Scoped →
        cacheLookup (lifetimeWrite eng ty v r.Lifetime st1).singletonCache ty = none ∧
        (eng < st.scopedCaches.length →
          cacheLookup ((lifetimeWrite eng ty v r.Lifetime st1).scopedCacheOf eng) ty = some v)) ∧
      (r.Lifetime = .Transient →
        cacheLookup (lifetimeWrite eng ty v r.Lifetime st1).singletonCache ty = none ∧
        cacheLookup ((lifetimeWrite eng ty v r.Lifetime st1).scopedCacheOf eng) ty = none) := by
    intro st1 hs1 hc1 hlen1
    refine ⟨?_, ?_, ?_⟩
    · intro hlt
      rw [hlt]
      constructor
      · show cacheLookup (cacheInsert st1.singletonCache ty v) ty = some v
        rw [cacheLookup_insert, if_pos rfl]
      · exact hc1
    · intro hlt
      rw [hlt]
      refine ⟨hs1, ?_⟩
      intro helen
      show cacheLookup ((st1.setScopedCache eng
        (cacheInsert (st1.scopedCacheOf eng) ty v)).scopedCacheOf eng) ty = some v
      rw [scopedCacheOf_set_self, if_pos (by omega), cacheLookup_insert, if_pos rfl]
    · intro hlt
      rw [hlt]
      exact ⟨hs1, hc1⟩
  cases hinst : r.Instance with
  | some w =>
    rw [resolveService_instance regs eng fuel ty st w r hb hs hc hr hinst] at h
    simp only [Option.some.injEq, Prod.mk.injEq, Except.ok.injEq] at h
    obtain ⟨h1, h2⟩ := h
    subst h2
    rw [← h1]
    exact main st hs hc rfl
  | none =>
    cases hfact : r.Factory with
    | some fct =>
      cases hsh : (fct.numIn == 1 && fct.in0IsProviderRef &&
          fct.numOut == 2 && fct.out1ImplementsError) with
      | true =>
        cases hfres : fct.result with
        | ok w =>
          rw [resolveService_factory_ok regs eng fuel ty st w r fct hb hs hc hr
            hinst hfact hsh hfres] at h
          simp only [Option.some.injEq, Prod.mk.injEq, Except.ok.injEq] at h
          obtain ⟨h1, h2⟩ := h
          subst h2
          rw [← h1]
          exact main st hs hc rfl
        | error e =>
          rw [resolveService_factory_err regs eng fuel ty st r fct e hb hs hc hr
            hinst hfact hsh hfres] at h
          simp only [Option.some.injEq, Prod.mk.injEq] at h
          exact absurd h.2 (by simp)
      | false =>
        rw [resolveService_factory_badShape regs eng fuel ty st r fct hb hs hc hr
          hinst hfact hsh] at h
        simp only [Option.some.injEq, Prod.mk.injEq] at h
        exact absurd h.2 (by simp)
    | none =>
      cases himpl : r.Implementation with
      | some impl =>
        rw [resolveService_blueprint regs eng fuel ty st r impl hb hs hc hr hinst
          hfact himpl] at h
        cases hci : createInstance regs eng fuel impl
            { st with resolutionStack := st.resolutionStack ++ [ty] } with
        | none =>
          rw [hci] at h
          exact Option.noConfusion h
        | some p =>
          obtain ⟨st1, res1⟩ := p
          rw [hci] at h
          cases res1 with
          | error e =>
            simp only [Option.some.injEq, Prod.mk.injEq] at h
            exact absurd h.2 (by simp)
          | ok w =>
            simp only [Option.some.injEq, Prod.mk.injEq, Except.ok.injEq] at h
            obtain ⟨h1, h2⟩ := h
            subst h2
            have hcf := ((frame_main regs eng fuel).2.1 impl _ st1 _ hci).1
            have htymem : ty ∈ ({ st with
                resolutionStack := st.resolutionStack ++ [ty] } :
                ProviderState).resolutionStack := by simp
            have hs1 : cacheLookup st1.singletonCache ty = none :=
              (hcf.stack_sing ty htymem).trans hs
            have hc1 : cacheLookup (st1.scopedCacheOf eng) ty = none :=
              (hcf.stack_scoped ty htymem).trans hc
            have hlen1 : st1.scopedCaches.length = st.scopedCaches.length :=
              hcf.scoped_len
            have hmain := main st1 hs1 hc1 hlen1
            rw [← h1]
            have hpop : ∀ s : ProviderState,
                cacheLookup (popStack s).singletonCache ty =
                  cacheLookup s.singletonCache ty ∧
                cacheLookup ((popStack s).scopedCacheOf eng) ty =
                  cacheLookup (s.scopedCacheOf eng) ty := fun s => ⟨rfl, rfl⟩
            refine ⟨?_, ?_, ?_⟩
            · intro hlt
              exact ⟨((hpop _).1).trans (hmain.1 hlt).1,
                ((hpop _).2).trans (hmain.1 hlt).2⟩
            · intro hlt
              exact ⟨((hpop _).1).trans (hmain.2.1 hlt).1,
                fun he => ((hpop _).2).trans ((hmain.2.1 hlt).2 he)⟩
            · intro hlt
              exact ⟨((hpop _).1).trans (hmain.2.2 hlt).1,
                ((hpop _).2).trans (hmain.2.2 hlt).2⟩
      | none =>
        rw [resolveService_noStrategy regs eng fuel ty st r hb hs hc hr hinst
          hfact himpl] at h
        simp only [Option.some.injEq, Prod.mk.injEq] at h
        exact absurd h.2 (by simp)

/-- A successful blueprint resolution returns the freshly allocated
reference: at least the entry allocation counter and strictly below the exit
counter. -/
theorem resolveService_blueprint_fresh (regs : List DependencyRegistration)
    (eng fuel : Nat) (ty : GoType) (st st' : ProviderState) (v : Nat)
    (r : DependencyRegistration) (impl : GoType)
    (hb : st.resolutionStack.contains ty = false)
    (hs : cacheLookup st.singletonCache ty = none)
    (hc : cacheLookup (st.scopedCacheOf eng) ty = none)
    (hr : findRegistration regs ty = some r)
    (hinst : r.Instance = none) (hfact : r.Factory = none)
    (himpl : r.Implementation = some impl)
    (h : resolveService regs eng (fuel + 1) ty st = some (st', .ok v)) :
    v = st.nextRef ∧ st.nextRef < st'.nextRef := by
  rw [resolveService_blueprint regs eng fuel ty st r impl hb hs hc hr hinst
    hfact himpl] at h
  cases hci : createInstance regs eng fuel impl
      { st with resolutionStack := st.resolutionStack ++ [ty] } with
  | none =>
    rw [hci] at h
    exact Option.noConfusion h
  | some p =>
    obtain ⟨st1, res1⟩ := p
    rw [hci] at h
    cases res1 with
    | error e =>
      simp only [Option.some.injEq, Prod.mk.injEq] at h
      exact absurd h.2 (by simp)
    | ok w =>
      simp only [Option.some.injEq, Prod.mk.injEq, Except.ok.injEq] at h
      obtain ⟨h1, h2⟩ := h
      subst h2
      have hfr := (frame_main regs eng fuel).2.1 impl _ st1 _ hci
      have hok := hfr.2 w rfl
      constructor
      · exact hok.1
      · have h3 : st'.nextRef = st1.nextRef := by
          rw [← h1]
          show (popStack (lifetimeWrite eng ty w r.Lifetime st1)).nextRef = _
          rw [show (popStack (lifetimeWrite eng ty w r.Lifetime st1)).nextRef =
            (lifetimeWrite eng ty w r.Lifetime st1).nextRef from rfl]
          exact lifetimeWrite_nextRef eng ty w r.Lifetime st1
        rw [h3]
        exact hok.2

theorem setSlot_scopedCacheOf (st : ProviderState) (ref i v e : Nat) :
    (setSlot st ref i v).scopedCacheOf e = st.scopedCacheOf e := by
  unfold ProviderState.scopedCacheOf
  rw [setSlot_scopedCaches]

/-- Slot-level behaviour of the field injector: positions outside the window
it walks are untouched; non-settable and non-interface fields are untouched;
a settable interface field whose contract is unregistered and uncached is
left untouched (its resolution fails and the failure is absorbed). -/
theorem inject_slots (regs : List DependencyRegistration) (eng : Nat) :
    ∀ (fields : List (Bool × FieldType)) (fuel ref i : Nat)
      (st st' : ProviderState) (err : Option GoError),
      ref < st.nextRef →
      injectDependencies regs eng fuel ref fields i st = some (st', err) →
      (∀ j, (∀ k, k < fields.length → j ≠ i + k) →
         slotOf st' ref j = slotOf st ref j) ∧
      (∀ k, k < fields.length →
         ((fields.getD k (false, .concrete)).1 = false ∨
          (fields.getD k (false, .concrete)).2 = .concrete) →
         slotOf st' ref (i + k) = slotOf st ref (i + k)) ∧
      (∀ k idt nm, fields.getD k (false, .concrete) = (true, .iface idt nm) →
         findRegistration regs (.iface idt nm) = none →
         cacheLookup st.singletonCache (.iface idt nm) = none →
         cacheLookup (st.scopedCacheOf eng) (.iface idt nm) = none →
         slotOf st' ref (i + k) = slotOf st ref (i + k)) := by
  intro fields
  induction fields with
  | nil =>
    intro fuel ref i st st' err href h
    cases fuel with
    | zero =>
      rw [injectDependencies_zero] at h
      exact Option.noConfusion h
    | succ f =>
      rw [injectDependencies_nil] at h
      simp only [Option.some.injEq, Prod.mk.injEq] at h
      obtain ⟨h1, h2⟩ := h
      subst h1
      refine ⟨fun j _ => rfl, fun k hk _ => absurd hk (by simp), ?_⟩
      intro k idt nm hk
      rw [List.getD] at hk
      cases k <;> simp at hk
  | cons fld rest ih =>
    intro fuel ref i st st' err href h
    obtain ⟨canSet, fty⟩ := fld
    cases fuel with
    | zero =>
      rw [injectDependencies_zero] at h
      exact Option.noConfusion h
    | succ f =>
      have wshift : ∀ j, (∀ k, k < ((canSet, fty) :: rest).length → j ≠ i + k) →
          (∀ k, k < rest.length → j ≠ (i + 1) + k) := by
        intro j hj k hk
        have := hj (k + 1) (by simpa using Nat.succ_lt_succ hk)
        omega
      have hskip : injectDependencies regs eng f ref rest (i + 1) st = some (st', err) →
          (∀ j, (∀ k, k < ((canSet, fty) :: rest).length → j ≠ i + k) →
             slotOf st' ref j = slotOf st ref j) ∧
          (∀ k, 0 < k → k < ((canSet, fty) :: rest).length →
             ((((canSet, fty) :: rest).getD k (false, .concrete)).1 = false ∨
              (((canSet, fty) :: rest).getD k (false, .concrete)).2 = .concrete) →
             slotOf st' ref (i + k) = slotOf st ref (i + k)) ∧
          (∀ k idt nm, 0 < k →
             ((canSet, fty) :: rest).getD k (false, .concrete) = (true, .iface idt nm) →
             findRegistration regs (.iface idt nm) = none →
             cacheLookup st.singletonCache (.iface idt nm) = none →
             cacheLookup (st.scopedCacheOf eng) (.iface idt nm) = none →
             slotOf st' ref (i + k) = slotOf st ref (i + k)) ∧
          slotOf st' ref i = slotOf st ref i := by
        intro hrec
        have IH := ih f ref (i + 1) st st' err href hrec
        refine ⟨?_, ?_, ?_, ?_⟩
        · intro j hj
          exact IH.1 j (wshift j hj)
        · intro k hk0 hk hkd
          obtain ⟨k', rfl⟩ : ∃ k', k = k' + 1 := ⟨k - 1, by omega⟩
          have h1 : i + (k' + 1) = (i + 1) + k' := by omega
          rw [h1]
          refine IH.2.1 k' (by simpa using Nat.lt_of_succ_lt_succ hk) ?_
          simpa [List.getD_cons_succ] using hkd
        · intro k idt nm hk0 hkd hreg hcs hcc
          obtain ⟨k', rfl⟩ : ∃ k', k = k' + 1 := ⟨k - 1, by omega⟩
          have h1 : i + (k' + 1) = (i + 1) + k' := by omega
          rw [h1]
          refine IH.2.2 k' idt nm ?_ hreg hcs hcc
          simpa [List.getD_cons_succ] using hkd
        · exact IH.1 i (by intro k hk; omega)
      cases canSet with
      | false =>
        rw [injectDependencies_cons_unset] at h
        have hsk := hskip h
        refine ⟨hsk.1, ?_, ?_⟩
        · intro k hk hkd
          cases k with
          | zero => simpa using hsk.2.2.2
          | succ k' => exact hsk.2.1 (k' + 1) (Nat.succ_pos k') hk hkd
        · intro k idt nm hkd hreg hcs hcc
          cases k with
          | zero => simp [List.getD_cons_zero] at hkd
          | succ k' => exact hsk.2.2.1 (k' + 1) idt nm (Nat.succ_pos k') hkd hreg hcs hcc
      | true =>
        cases fty with
        | concrete =>
          rw [injectDependencies_cons_concrete] at h
          have hsk := hskip h
          refine ⟨hsk.1, ?_, ?_⟩
          · intro k hk hkd
            cases k with
            | zero => simpa using hsk.2.2.2
            | succ k' => exact hsk.2.1 (k' + 1) (Nat.succ_pos k') hk hkd
          · intro k idt nm hkd hreg hcs hcc
            cases k with
            | zero => simp [List.getD_cons_zero] at hkd
            | succ k' => exact hsk.2.2.1 (k' + 1) idt nm (Nat.succ_pos k') hkd hreg hcs hcc
        | iface idt0 nm0 =>
          rw [injectDependencies_cons_iface] at h
          cases hres : resolveService regs eng f (.iface idt0 nm0) st with
          | none =>
            rw [hres] at h
            exact Option.noConfusion h
          | some q =>
            obtain ⟨stA, resA⟩ := q
            rw [hres] at h
            have F1 := (frame_main regs eng f).1 (.iface idt0 nm0) st stA resA hres
            have hA : ∀ j, slotOf stA ref j = slotOf st ref j :=
              slotOf_eq_of_heapLookup (F1.heap_old ref href (by simp))
            cases resA with
            | ok w =>
              have href2 : ref < (setSlot stA ref i w).nextRef := by
                rw [setSlot_nextRef]
                exact Nat.lt_of_lt_of_le href F1.nextRef_le
              have IH := ih f ref (i + 1) (setSlot stA ref i w) st' err href2 h
              have hout : ∀ j, j ≠ i → (∀ k, k < rest.length → j ≠ (i + 1) + k) →
                  slotOf st' ref j = slotOf st ref j := by
                intro j hji hjr
                rw [IH.1 j hjr, slotOf_setSlot_ne stA ref i w j hji, hA j]
              refine ⟨?_, ?_, ?_⟩
              · intro j hj
                exact hout j (by have := hj 0 (by simp); omega) (wshift j hj)
              · intro k hk hkd
                cases k with
                | zero =>
                  rcases hkd with h1 | h1
                  · simp at h1
                  · simp at h1
                | succ k' =>
                  have h1 : i + (k' + 1) = (i + 1) + k' := by omega
                  rw [h1]
                  have h2 := IH.2.1 k' (by simpa using Nat.lt_of_succ_lt_succ hk)
                    (by simpa [List.getD_cons_succ] using hkd)
                  rw [h2, slotOf_setSlot_ne stA ref i w _ (by omega), hA]
              · intro k idt nm hkd hreg hcs hcc
                cases k with
                | zero =>
                  rw [List.getD_cons_zero] at hkd
                  injection hkd with ha hb
                  injection hb with hb1 hb2
                  subst hb1
                  subst hb2
                  cases f with
                  | zero =>
                    rw [resolveService_zero] at hres
                    exact Option.noConfusion hres
                  | succ f2 =>
                    cases hbT : st.resolutionStack.contains (GoType.iface idt0 nm0) with
                    | true =>
                      rw [resolveService_cycle regs eng f2 _ st hbT] at hres
                      simp at hres
                    | false =>
                      rw [resolveService_notFound regs eng f2 _ st hbT hcs hcc hreg] at hres
                      simp at hres
                | succ k' =>
                  have h1 : i + (k' + 1) = (i + 1) + k' := by omega
                  rw [h1]
                  have hcs2 : cacheLookup (setSlot stA ref i w).singletonCache
                      (.iface idt nm) = none := by
                    rw [setSlot_singletonCache]
                    rw [F1.unreg_sing _ hreg]
                    exact hcs
                  have hcc2 : cacheLookup ((setSlot stA ref i w).scopedCacheOf eng)
                      (.iface idt nm) = none := by
                    rw [setSlot_scopedCacheOf]
                    rw [F1.unreg_scoped _ hreg]
                    exact hcc
                  have h2 := IH.2.2 k' idt nm
                    (by simpa [List.getD_cons_succ] using hkd) hreg hcs2 hcc2
                  rw [h2, slotOf_setSlot_ne stA ref i w _ (by omega), hA]
            | error e =>
              have href2 : ref < stA.nextRef := Nat.lt_of_lt_of_le href F1.nextRef_le
              have IH := ih f ref (i + 1) stA st' err href2 h
              have hout : ∀ j, (∀ k, k < rest.length → j ≠ (i + 1) + k) →
                  slotOf st' ref j = slotOf st ref j := by
                intro j hjr
                rw [IH.1 j hjr, hA j]
              refine ⟨?_, ?_, ?_⟩
              · intro j hj
                exact hout j (wshift j hj)
              · intro k hk hkd
                cases k with
                | zero =>
                  rcases hkd with h1 | h1
                  · simp at h1
                  · simp at h1
                | succ k' =>
                  have h1 : i + (k' + 1) = (i + 1) + k' := by omega
                  rw [h1]
                  have h2 := IH.2.1 k' (by simpa using Nat.lt_of_succ_lt_succ hk)
                    (by simpa [List.getD_cons_succ] using hkd)
                  rw [h2, hA]
              · intro k idt nm hkd hreg hcs hcc
                cases k with
                | zero =>
                  rw [List.getD_cons_zero] at hkd
                  have hii : i + 0 = i := by omega
                  rw [hii]
                  exact hout i (by intro kk hkk; omega)
                | succ k' =>
                  have h1 : i + (k' + 1) = (i + 1) + k' := by omega
                  rw [h1]
                  have hcs2 : cacheLookup stA.singletonCache (.iface idt nm) = none := by
                    rw [F1.unreg_sing _ hreg]
                    exact hcs
                  have hcc2 : cacheLookup (stA.scopedCacheOf eng) (.iface idt nm) = none := by
                    rw [F1.unreg_scoped _ hreg]
                    exact hcc
                  have h2 := IH.2.2 k' idt nm
                    (by simpa [List.getD_cons_succ] using hkd) hreg hcs2 hcc2
                  rw [h2, hA]

section ClaimExamples

/-- Example contract and blueprint types used by concrete witnesses. -/
def exIfA : GoType := .iface 0 "A"

def exIfB : GoType := .iface 1 "B"

def exIfC : GoType := .iface 2 "C"

def exImplA : GoType := .ptrStruct 10 "*implA" [(true, .iface 1 "B")]

def exImplB : GoType := .ptrStruct 11 "*implB" [(true, .iface 2 "C")]

def exImplC : GoType := .ptrStruct 12 "*implC" [(true, .iface 0 "A")]

/-- The circular chain A -> B -> C -> A, each link a settable interface
field satisfied by field injection. -/
def exRegsCycle : List DependencyRegistration :=
  [⟨exIfA, some exImplA, none, none, .Transient⟩,
   ⟨exIfB, some exImplB, none, none, .Transient⟩,
   ⟨exIfC, some exImplC, none, none, .Transient⟩]

/-- A fresh root engine with an empty world, allocating from reference 100. -/
def exSt0 : ProviderState := BuildServiceProvider [] 100

end ClaimExamples

section Claims

/-- Claim C1: for every contract that already has an instance in the root
singleton cache or in this engine's scoped cache, `GetService` returns that
cached instance and changes nothing else — the state comes back identical
(stack reset aside), so no field injection, no allocation and no cache write
happens on a hit. -/
theorem claim_C1_cache_hit_short_circuits
    (regs : List DependencyRegistration) (eng fuel : Nat) (ty : GoType)
    (st : ProviderState) (v : Nat)
    (hhit : cacheLookup st.singletonCache ty = some v ∨
      (cacheLookup st.singletonCache ty = none ∧
       cacheLookup (st.scopedCacheOf eng) ty = some v)) :
    GetService regs eng (fuel + 1) ty st =
      some ({ st with resolutionStack := [] }, .ok v) := by
  unfold GetService
  have hstk : ({ st with resolutionStack := [] } :
      ProviderState).resolutionStack.contains ty = false := rfl
  rcases hhit with hs | ⟨hs, hc⟩
  · exact resolveService_hit_singleton regs eng fuel ty _ v hstk hs
  · exact resolveService_hit_scoped regs eng fuel ty _ v hstk hs hc

theorem claim_C1_witness :
    GetService [] 0 1 exIfA
      { exSt0 with singletonCache := [(exIfA, 55)] } =
      some ({ exSt0 with singletonCache := [(exIfA, 55)], resolutionStack := [] },
        .ok 55) :=
  claim_C1_cache_hit_short_circuits [] 0 0 exIfA
    { exSt0 with singletonCache := [(exIfA, 55)] } 55 (Or.inl (by decide))

/-- Claim C4: with duplicate registrations for one contract, the reverse
scan of the registration list finds the most recently registered descriptor,
and resolution uses only that descriptor. -/
theorem claim_C4_last_registration_wins
    (regs1 regs2 : List DependencyRegistration) (r : DependencyRegistration)
    (eng fuel : Nat) (ty : GoType) (st : ProviderState) (v : Nat)
    (hty : r.ServiceType = ty)
    (hafter : ∀ r' ∈ regs2, r'.ServiceType ≠ ty)
    (hs : cacheLookup st.singletonCache ty = none)
    (hc : cacheLookup (st.scopedCacheOf eng) ty = none)
    (hi : r.Instance = some v) :
    findRegistration (regs1 ++ r :: regs2) ty = some r ∧
    (GetService (regs1 ++ r :: regs2) eng (fuel + 1) ty st).map
      (fun p => p.2) = some (.ok v) := by
  have hfind : findRegistration (regs1 ++ r :: regs2) ty = some r := by
    unfold findRegistration
    rw [List.reverse_append, List.reverse_cons, List.append_assoc,
      List.find?_append, List.find?_append]
    have h2 : regs2.reverse.find? (fun reg => reg.ServiceType == ty) = none := by
      rw [List.find?_eq_none]
      intro x hx
      simpa using hafter x (by simpa using hx)
    rw [h2]
    simp [hty]
  refine ⟨hfind, ?_⟩
  unfold GetService
  have hres := resolveService_instance (regs1 ++ r :: regs2) eng fuel ty
    { st with resolutionStack := [] } v r rfl hs hc hfind hi
  rw [hres]
  rfl

theorem claim_C4_witness :
    findRegistration
      ([⟨exIfA, none, none, some 1, .Singleton⟩] ++
        ⟨exIfA, none, none, some 2, .Singleton⟩ :: []) exIfA =
      some ⟨exIfA, none, none, some 2, .Singleton⟩ ∧
    (GetService
      ([⟨exIfA, none, none, some 1, .Singleton⟩] ++
        ⟨exIfA, none, none, some 2, .Singleton⟩ :: []) 0 1 exIfA exSt0).map
      (fun p => p.2) = some (.ok 2) :=
  claim_C4_last_registration_wins
    [⟨exIfA, none, none, some 1, .Singleton⟩]
    [] ⟨exIfA, none, none, some 2, .Singleton⟩ 0 0 exIfA exSt0 2
    rfl (by intro r' hr'; simp at hr') (by decide) (by decide) rfl

/-- Claim C5: an Instance-strategy registration resolves to the stored
pre-built value as-is, with no field injection performed on it: the heap and
the allocation counter are unchanged by the call. -/
theorem claim_C5_instance_returned_as_is
    (regs : List DependencyRegistration) (eng fuel : Nat) (ty : GoType)
    (st : ProviderState) (v : Nat) (r : DependencyRegistration)
    (hs : cacheLookup st.singletonCache ty = none)
    (hc : cacheLookup (st.scopedCacheOf eng) ty = none)
    (hr : findRegistration regs ty = some r)
    (hi : r.Instance = some v) :
    (GetService regs eng (fuel + 1) ty st).map (fun p => p.2) =
      some (.ok v) ∧
    (GetService regs eng (fuel + 1) ty st).map (fun p => p.1.heap) =
      some st.heap ∧
    (GetService regs eng (fuel + 1) ty st).map (fun p => p.1.nextRef) =
      some st.nextRef := by
  unfold GetService
  have hres := resolveService_instance regs eng fuel ty
    { st with resolutionStack := [] } v r rfl hs hc hr hi
  rw [hres]
  refine ⟨rfl, ?_, ?_⟩
  · simp [Option.map_some', lifetimeWrite_heap]
  · simp [Option.map_some', lifetimeWrite_nextRef]

theorem claim_C5_witness :
    ((GetService [⟨exIfA, none, none, some 9, .Singleton⟩] 0 1 exIfA
        { exSt0 with heap := [(9, ⟨exImplA, [none]⟩)] }).map (fun p => p.2) =
      some (.ok 9)) ∧
    ((GetService [⟨exIfA, none, none, some 9, .Singleton⟩] 0 1 exIfA
        { exSt0 with heap := [(9, ⟨exImplA, [none]⟩)] }).map (fun p => p.1.heap) =
      some [(9, ⟨exImplA, [none]⟩)]) ∧
    ((GetService [⟨exIfA, none, none, some 9, .Singleton⟩] 0 1 exIfA
        { exSt0 with heap := [(9, ⟨exImplA, [none]⟩)] }).map (fun p => p.1.nextRef) =
      some 100) :=
  claim_C5_instance_returned_as_is
    [⟨exIfA, none, none, some 9, .Singleton⟩] 0 0 exIfA
    { exSt0 with heap := [(9, ⟨exImplA, [none]⟩)] } 9
    ⟨exIfA, none, none, some 9, .Singleton⟩
    (by decide) (by decide) rfl rfl

/-- Claim C8: an unregistered contract fails with the `ErrServiceNotFound`
sentinel, and a registration carrying none of the three strategies fails
with the `ErrInvalidServiceType` sentinel; both failures leave the state
untouched. -/
theorem claim_C8_notFound_and_noStrategy
    (regs : List DependencyRegistration) (eng fuel : Nat) (ty : GoType)
    (st : ProviderState)
    (hs : cacheLookup st.singletonCache ty = none)
    (hc : cacheLookup (st.scopedCacheOf eng) ty = none) :
    (findRegistration regs ty = none →
       GetService regs eng (fuel + 1) ty st =
         some ({ st with resolutionStack := [] },
           .error (.wrapped .serviceNotFound ty.str))) ∧
    (∀ r, findRegistration regs ty = some r → r.Instance = none →
       r.Factory = none → r.Implementation = none →
       GetService regs eng (fuel + 1) ty st =
         some ({ st with resolutionStack := [] },
           .error (.wrapped .invalidServiceType
             ("no implementation for " ++ ty.str)))) := by
  constructor
  · intro hnone
    unfold GetService
    exact resolveService_notFound regs eng fuel ty _ rfl hs hc hnone
  · intro r hr hi hf hm
    unfold GetService
    exact resolveService_noStrategy regs eng fuel ty _ r rfl hs hc hr hi hf hm

theorem claim_C8_witness :
    (findRegistration [] exIfA = none →
       GetService [] 0 1 exIfA exSt0 =
         some ({ exSt0 with resolutionStack := [] },
           .error (.wrapped .serviceNotFound "A"))) ∧
    (∀ r, findRegistration [] exIfA = some r → r.Instance = none →
       r.Factory = none → r.Implementation = none →
       GetService [] 0 1 exIfA exSt0 =
         some ({ exSt0 with resolutionStack := [] },
           .error (.wrapped .invalidServiceType "no implementation for A"))) :=
  claim_C8_notFound_and_noStrategy [] 0 0 exIfA exSt0 (by decide) (by decide)

/-- Claim C10: a Blueprint registration whose implementation type is not a
pointer to a struct fails with an error rather than panicking, and the
failed call writes neither cache (the state comes back unchanged apart from
the stack reset). -/
theorem claim_C10_bad_blueprint_fails_cleanly
    (regs : List DependencyRegistration) (eng fuel : Nat) (ty : GoType)
    (st : ProviderState) (r : DependencyRegistration) (impl : GoType)
    (hs : cacheLookup st.singletonCache ty = none)
    (hc : cacheLookup (st.scopedCacheOf eng) ty = none)
    (hr : findRegistration regs ty = some r)
    (hi : r.Instance = none) (hf : r.Factory = none)
    (hm : r.Implementation = some impl)
    (hkind : ∀ idt nm fs, impl ≠ .ptrStruct idt nm fs) :
    GetService regs eng (fuel + 1 + 1) ty st =
      some ({ st with resolutionStack := [] },
        .error (.plain
          ("implementation must be a pointer to struct: " ++ impl.str))) := by
  unfold GetService
  exact resolveService_notPtrStruct regs eng fuel ty _ r impl rfl hs hc hr hi
    hf hm hkind

theorem claim_C10_witness :
    GetService [⟨exIfA, some (GoType.other 42 "int"), none, none, .Singleton⟩]
      0 2 exIfA exSt0 =
      some ({ exSt0 with resolutionStack := [] },
        .error (.plain "implementation must be a pointer to struct: int")) :=
  claim_C10_bad_blueprint_fails_cleanly
    [⟨exIfA, some (GoType.other 42 "int"), none, none, .Singleton⟩] 0 0 exIfA
    exSt0 ⟨exIfA, some (GoType.other 42 "int"), none, none, .Singleton⟩
    (GoType.other 42 "int") (by decide) (by decide) rfl rfl rfl rfl
    (fun idt nm fs h => GoType.noConfusion h)

end Claims

/-- Claim C6 counterexample: a conforming factory that reports the error
`boom` for contract `IFoo`. `GetService` hands the caller the factory's error
object verbatim — a plain error equal to `boom`, wrapping no sentinel and never
mentioning the contract name (its text has no character of `IFoo` at all) —
so the error is *not* wrapped
with the contract identity as the claim states. -/
theorem claim_C6_counterexample :
    GetService [⟨.iface 6 "IFoo", none, some ⟨1, true, 2, true, .error (.plain "boom")⟩,
        none, .Transient⟩] 0 3 (.iface 6 "IFoo") exSt0 =
      some (exSt0, .error (.plain "boom")) ∧
    GoError.isSentinel (.plain "boom") .serviceNotFound = false ∧
    GoError.isSentinel (.plain "boom") .circularDependency = false ∧
    GoError.isSentinel (.plain "boom") .invalidServiceType = false ∧
    "boom".data.contains 'I' = false := by
  refine ⟨by decide, rfl, rfl, rfl, by decide⟩

/-- Claim C6 amended: a conforming factory's reported error is propagated to
the caller verbatim — the caller receives exactly the factory's error value,
with no wrapping and no added contract-identity context, and the failed call
leaves the state untouched. -/
theorem claim_C6_factory_error_verbatim
    (regs : List DependencyRegistration) (eng fuel : Nat) (ty : GoType)
    (st : ProviderState) (r : DependencyRegistration) (f : GoFactory)
    (e : GoError)
    (hs : cacheLookup st.singletonCache ty = none)
    (hc : cacheLookup (st.scopedCacheOf eng) ty = none)
    (hr : findRegistration regs ty = some r)
    (hi : r.Instance = none) (hf : r.Factory = some f)
    (hshape : (f.numIn == 1 && f.in0IsProviderRef &&
      f.numOut == 2 && f.out1ImplementsError) = true)
    (hres : f.result = .error e) :
    GetService regs eng (fuel + 1) ty st =
      some ({ st with resolutionStack := [] }, .error e) := by
  unfold GetService
  exact resolveService_factory_err regs eng fuel ty
    { st with resolutionStack := [] } r f e rfl hs hc hr hi hf hshape hres

theorem claim_C6_witness :
    GetService [⟨exIfB, none, some ⟨1, true, 2, true, .error (.plain "db down")⟩,
        none, .Scoped⟩] 0 4 exIfB exSt0 =
      some ({ exSt0 with resolutionStack := [] }, .error (.plain "db down")) :=
  claim_C6_factory_error_verbatim
    [⟨exIfB, none, some ⟨1, true, 2, true, .error (.plain "db down")⟩, none, .Scoped⟩]
    0 3 exIfB exSt0
    ⟨exIfB, none, some ⟨1, true, 2, true, .error (.plain "db down")⟩, none, .Scoped⟩
    ⟨1, true, 2, true, .error (.plain "db down")⟩ (.plain "db down")
    (by decide) (by decide) rfl rfl rfl (by decide) rfl

/-- Claim C7 counterexample: a factory with the wrong shape (no parameters,
no results) registered for contract `IBar`. The resolve call fails, but with
the plain error `invalid factory function for IBar`, which does not wrap the
`ErrInvalidServiceType` sentinel — so the failure is not "the
InvalidServiceType error" of `constants.go` as the claim states. -/
theorem claim_C7_counterexample :
    GetService [⟨.iface 7 "IBar", none, some ⟨0, false, 0, false, .ok 7⟩,
        none, .Transient⟩] 0 3 (.iface 7 "IBar") exSt0 =
      some (exSt0, .error (.plain "invalid factory function for IBar")) ∧
    GoError.isSentinel (.plain "invalid factory function for IBar")
      .invalidServiceType = false := by
  refine ⟨by decide, rfl⟩

/-- Claim C7 amended: a factory that does not have exactly the shape of one
engine-reference parameter and two results (value, error) makes resolve fail
— but with the plain error `invalid factory function for <contract>`, not
with the `ErrInvalidServiceType` sentinel; the failed call leaves the state
untouched. -/
theorem claim_C7_bad_factory_shape_plain_error
    (regs : List DependencyRegistration) (eng fuel : Nat) (ty : GoType)
    (st : ProviderState) (r : DependencyRegistration) (f : GoFactory)
    (hs : cacheLookup st.singletonCache ty = none)
    (hc : cacheLookup (st.scopedCacheOf eng) ty = none)
    (hr : findRegistration regs ty = some r)
    (hi : r.Instance = none) (hf : r.Factory = some f)
    (hshape : (f.numIn == 1 && f.in0IsProviderRef &&
      f.numOut == 2 && f.out1ImplementsError) = false) :
    GetService regs eng (fuel + 1) ty st =
      some ({ st with resolutionStack := [] },
        .error (.plain ("invalid factory function for " ++ ty.str))) ∧
    ∀ st2 e, GetService regs eng (fuel + 1) ty st = some (st2, .error e) →
      GoError.isSentinel e .invalidServiceType = false := by
  unfold GetService
  have hmain := resolveService_factory_badShape regs eng fuel ty
    { st with resolutionStack := [] } r f rfl hs hc hr hi hf hshape
  refine ⟨hmain, ?_⟩
  intro st2 e h2
  rw [hmain] at h2
  simp only [Option.some.injEq, Prod.mk.injEq] at h2
  obtain ⟨h3, h4⟩ := h2
  injection h4 with h5
  rw [← h5]
  rfl

theorem claim_C7_witness :
    (GetService [⟨exIfC, none, some ⟨2, true, 2, true, .ok 3⟩, none, .Singleton⟩]
        0 6 exIfC exSt0 =
      some ({ exSt0 with resolutionStack := [] },
        .error (.plain "invalid factory function for C"))) ∧
    (∀ st2 e, GetService [⟨exIfC, none, some ⟨2, true, 2, true, .ok 3⟩, none, .Singleton⟩]
        0 6 exIfC exSt0 = some (st2, .error e) →
      GoError.isSentinel e .invalidServiceType = false) :=
  claim_C7_bad_factory_shape_plain_error
    [⟨exIfC, none, some ⟨2, true, 2, true, .ok 3⟩, none, .Singleton⟩] 0 5 exIfC
    exSt0 ⟨exIfC, none, some ⟨2, true, 2, true, .ok 3⟩, none, .Singleton⟩
    ⟨2, true, 2, true, .ok 3⟩
    (by decide) (by decide) rfl rfl rfl (by decide)

/-- Claim C2 counterexample: for the chain A -> B -> C -> A (each link a
settable interface field satisfied by injection), resolving `A` does *not*
fail: it returns a fresh instance of A successfully, because the
circular-dependency error raised by the nested resolution is absorbed by the
best-effort field injector. -/
theorem claim_C2_counterexample :
    (GetService exRegsCycle 0 30 exIfA exSt0).map (fun p => p.2) =
      some (.ok 100) := by
  decide

/-- Claim C2 amended: the nested field-injection resolutions do extend the
same in-flight resolution path, and the attempt to resolve `A` again while
`A -> B -> C` is in flight fails with a circular-dependency error whose
diagnostic path is exactly `A -> B -> C -> A`; but that error is absorbed by
best-effort injection, so the top-level resolve of `A` succeeds, returning an
A whose B field and B's C field are injected while C's cycle-closing A field
is left unset. -/
theorem claim_C2_cycle_error_absorbed :
    (GetService exRegsCycle 0 30 exIfA exSt0).map (fun p => p.2) =
      some (.ok 100) ∧
    resolveService exRegsCycle 0 20 exIfA
      { exSt0 with resolutionStack := [exIfA, exIfB, exIfC] } =
      some ({ exSt0 with resolutionStack := [exIfA, exIfB, exIfC] },
        .error (.wrapped .circularDependency "A -> B -> C -> A")) ∧
    (GetService exRegsCycle 0 30 exIfA exSt0).map (fun p => slotOf p.1 100 0) =
      some (some 101) ∧
    (GetService exRegsCycle 0 30 exIfA exSt0).map (fun p => slotOf p.1 101 0) =
      some (some 102) ∧
    (GetService exRegsCycle 0 30 exIfA exSt0).map (fun p => slotOf p.1 102 0) =
      some none := by
  refine ⟨by decide, by decide, by decide, by decide, by decide⟩

/-- Claim C9: blueprint construction is best-effort: `createInstance` on a
pointer-to-struct type never propagates a field-resolution failure (the
result is always the freshly allocated instance), non-settable and
non-interface fields are never touched (they stay at their zero value), and
a settable interface field whose contract is unregistered and uncached is
left at its unset value. -/
theorem claim_C9_injection_best_effort
    (regs : List DependencyRegistration) (eng fuel idt : Nat) (nm : String)
    (fields : List (Bool × FieldType)) (st st' : ProviderState)
    (res : Except GoError Nat)
    (h : createInstance regs eng (fuel + 1) (.ptrStruct idt nm fields) st =
      some (st', res)) :
    res = .ok st.nextRef ∧
    (∀ k, k < fields.length →
       ((fields.getD k (false, .concrete)).1 = false ∨
        (fields.getD k (false, .concrete)).2 = .concrete) →
       slotOf st' st.nextRef k = none) ∧
    (∀ k idt2 nm2,
       fields.getD k (false, .concrete) = (true, .iface idt2 nm2) →
       findRegistration regs (.iface idt2 nm2) = none →
       cacheLookup st.singletonCache (.iface idt2 nm2) = none →
       cacheLookup (st.scopedCacheOf eng) (.iface idt2 nm2) = none →
       slotOf st' st.nextRef k = none) := by
  rw [createInstance_ptrStruct] at h
  cases hin : injectDependencies regs eng fuel st.nextRef fields 0
      { st with
        heap := heapInsert st.heap st.nextRef
          ⟨.ptrStruct idt nm fields, List.replicate fields.length none⟩,
        nextRef := st.nextRef + 1 } with
  | none =>
    rw [hin] at h
    exact Option.noConfusion h
  | some p =>
    obtain ⟨st2, errv⟩ := p
    rw [hin] at h
    have herr := ((frame_main regs eng fuel).2.2 st.nextRef fields 0 _ st2 errv hin).2
    cases errv with
    | some e => exact absurd herr (by simp)
    | none =>
      simp only [Option.some.injEq, Prod.mk.injEq] at h
      obtain ⟨h1, h2⟩ := h
      subst h1
      have hslots := inject_slots regs eng fields fuel st.nextRef 0 _ st2 none
        (Nat.lt_succ_self st.nextRef) hin
      have hbase : ∀ k, slotOf
          { st with
            heap := heapInsert st.heap st.nextRef
              ⟨.ptrStruct idt nm fields, List.replicate fields.length none⟩,
            nextRef := st.nextRef + 1 } st.nextRef k = none := by
        intro k
        unfold slotOf
        have hl : heapLookup
            ({ st with
              heap := heapInsert st.heap st.nextRef
                ⟨.ptrStruct idt nm fields, List.replicate fields.length none⟩,
              nextRef := st.nextRef + 1 } : ProviderState).heap st.nextRef =
            some ⟨.ptrStruct idt nm fields, List.replicate fields.length none⟩ := by
          show heapLookup (heapInsert st.heap st.nextRef _) st.nextRef = _
          rw [heapLookup_insert, if_pos rfl]
        rw [hl]
        exact getD_replicate_none _ _
      refine ⟨h2.symm, ?_, ?_⟩
      · intro k hk hkd
        have h3 := hslots.2.1 k hk hkd
        rw [Nat.zero_add] at h3
        rw [h3, hbase k]
      · intro k idt2 nm2 hkd hreg hcs hcc
        have h3 := hslots.2.2 k idt2 nm2 hkd hreg hcs hcc
        rw [Nat.zero_add] at h3
        rw [h3, hbase k]

theorem claim_C9_witness :
    ((Except.ok 100 : Except GoError Nat) = .ok (exSt0.nextRef)) ∧
    (∀ k, k < [(true, FieldType.iface 50 "X"), (false, FieldType.iface 0 "A"),
        (true, FieldType.concrete)].length →
       ((([(true, FieldType.iface 50 "X"), (false, FieldType.iface 0 "A"),
            (true, FieldType.concrete)]).getD k (false, .concrete)).1 = false ∨
        (([(true, FieldType.iface 50 "X"), (false, FieldType.iface 0 "A"),
            (true, FieldType.concrete)]).getD k (false, .concrete)).2 = .concrete) →
       slotOf ({ exSt0 with
         heap := heapInsert exSt0.heap 100
           ⟨.ptrStruct 20 "*S" [(true, .iface 50 "X"), (false, .iface 0 "A"),
              (true, .concrete)],
            List.replicate 3 none⟩,
         nextRef := 101 }) exSt0.nextRef k = none) ∧
    (∀ k idt2 nm2,
       ([(true, FieldType.iface 50 "X"), (false, FieldType.iface 0 "A"),
          (true, FieldType.concrete)]).getD k (false, .concrete) =
         (true, .iface idt2 nm2) →
       findRegistration [] (.iface idt2 nm2) = none →
       cacheLookup exSt0.singletonCache (.iface idt2 nm2) = none →
       cacheLookup (exSt0.scopedCacheOf 0) (.iface idt2 nm2) = none →
       slotOf ({ exSt0 with
         heap := heapInsert exSt0.heap 100
           ⟨.ptrStruct 20 "*S" [(true, .iface 50 "X"), (false, .iface 0 "A"),
              (true, .concrete)],
            List.replicate 3 none⟩,
         nextRef := 101 }) exSt0.nextRef k = none) :=
  claim_C9_injection_best_effort [] 0 4 20 "*S"
    [(true, .iface 50 "X"), (false, .iface 0 "A"), (true, .concrete)]
    exSt0 _ _ (by decide)

/-- A transient contract registered by a conforming factory that always
returns the same pre-existing value 7. -/
def exRegsTF : List DependencyRegistration :=
  [⟨.iface 7 "T", none, some ⟨1, true, 2, true, .ok 7⟩, none, .Transient⟩]

/-- Claim C3 counterexample: resolving the Transient contract `T` twice
returns the identical instance 7 both times (its factory returns the same
value on every call, and the engine re-invokes it without caching), so a
Transient contract does *not* yield a fresh instance on every resolve. -/
theorem claim_C3_counterexample :
    GetService exRegsTF 0 5 (.iface 7 "T") exSt0 = some (exSt0, .ok 7) ∧
    (GetService exRegsTF 0 5 (.iface 7 "T") exSt0).bind
      (fun p => GetService exRegsTF 0 5 (.iface 7 "T") p.1) =
      some (exSt0, .ok 7) := by
  refine ⟨by decide, by decide⟩

/-- Claim C3 amended: within one top-level resolution, a Singleton contract
is written into the root singleton cache (shared with every scope) and a
later resolve from any engine of the tree returns the identical cached
instance; a Scoped contract is written only into the resolving engine's own
scoped cache, other scopes' caches being untouched; a Transient contract is
written into neither cache. For blueprint-produced instances the freshness
consequences hold: the instance is the freshly allocated reference, a
Transient blueprint yields a distinct instance on a second resolve, and a
Scoped blueprint yields a distinct instance in a fresh sibling scope.
(Factory-backed contracts return whatever their factory produces, which need
not be fresh — the uncorrected claim fails there.) -/
theorem claim_C3_lifetime_caching
    (regs : List DependencyRegistration) (eng fuel : Nat) (ty : GoType)
    (st st' : ProviderState) (v : Nat) (r : DependencyRegistration)
    (h : GetService regs eng (fuel + 1) ty st = some (st', .ok v))
    (hs : cacheLookup st.singletonCache ty = none)
    (hc : cacheLookup (st.scopedCacheOf eng) ty = none)
    (hr : findRegistration regs ty = some r) :
    (r.Lifetime = .Singleton →
       cacheLookup st'.singletonCache ty = some v ∧
       cacheLookup (st'.scopedCacheOf eng) ty = none ∧
       (∀ fuel₂ eng₂, GetService regs eng₂ (fuel₂ + 1) ty st' =
          some ({ st' with resolutionStack := [] }, .ok v))) ∧
    (r.Lifetime = .Scoped →
       cacheLookup st'.singletonCache ty = none ∧
       (eng < st.scopedCaches.length →
         cacheLookup (st'.scopedCacheOf eng) ty = some v) ∧
       (∀ e, e ≠ eng → st'.scopedCaches.getD e [] = st.scopedCaches.getD e [])) ∧
    (r.Lifetime = .Transient →
       cacheLookup st'.singletonCache ty = none ∧
       cacheLookup (st'.scopedCacheOf eng) ty = none) ∧
    (r.Instance = none → r.Factory = none →
       v = st.nextRef ∧ v < st'.nextRef ∧
       (r.Lifetime = .Transient →
         ∀ fuel₂ st'' v₂,
           GetService regs eng (fuel₂ + 1) ty st' = some (st'', .ok v₂) →
           v₂ ≠ v) ∧
       (r.Lifetime = .Scoped →
         ∀ fuel₂ st'' v₂,
           GetService regs (CreateScope st').2 (fuel₂ + 1) ty
             (CreateScope st').1 = some (st'', .ok v₂) → v₂ ≠ v)) := by
  unfold GetService at h
  have hw := resolveService_writes regs eng fuel ty
    { st with resolutionStack := [] } st' v r rfl hs hc hr h
  have hfr := (frame_main regs eng (fuel + 1)).1 ty
    { st with resolutionStack := [] } st' (.ok v) h
  refine ⟨?_, ?_, ?_, ?_⟩
  · intro hlt
    refine ⟨(hw.1 hlt).1, (hw.1 hlt).2, ?_⟩
    intro fuel₂ eng₂
    unfold GetService
    exact resolveService_hit_singleton regs eng₂ fuel₂ ty
      { st' with resolutionStack := [] } v rfl (hw.1 hlt).1
  · intro hlt
    exact ⟨(hw.2.1 hlt).1, (hw.2.1 hlt).2, fun e he => hfr.other_scopes e he⟩
  · exact hw.2.2
  · intro hi hf
    cases himpl : r.Implementation with
    | none =>
      rw [resolveService_noStrategy regs eng fuel ty
        { st with resolutionStack := [] } r rfl hs hc hr hi hf himpl] at h
      simp at h
    | some impl =>
      have hfresh := resolveService_blueprint_fresh regs eng fuel ty
        { st with resolutionStack := [] } st' v r impl rfl hs hc hr hi hf himpl h
      refine ⟨hfresh.1, by omega, ?_, ?_⟩
      · intro hlt fuel₂ st'' v₂ h₂
        unfold GetService at h₂
        have hfresh₂ := resolveService_blueprint_fresh regs eng fuel₂ ty
          { st' with resolutionStack := [] } st'' v₂ r impl rfl
          (hw.2.2 hlt).1 (hw.2.2 hlt).2 hr hi hf himpl h₂
        have h3 : v₂ = st'.nextRef := hfresh₂.1
        omega
      · intro hlt fuel₂ st'' v₂ h₂
        unfold GetService at h₂
        have hsing2 : cacheLookup
            (({ st' with scopedCaches := st'.scopedCaches ++ [[]] } :
              ProviderState).singletonCache) ty = none := (hw.2.1 hlt).1
        have hscop2 : cacheLookup
            (({ st' with scopedCaches := st'.scopedCaches ++ [[]] } :
              ProviderState).scopedCacheOf st'.scopedCaches.length) ty = none := by
          show cacheLookup
            ((st'.scopedCaches ++ [[]]).getD st'.scopedCaches.length []) ty = none
          rw [List.getD_eq_getElem?_getD,
            List.getElem?_append_right (Nat.le_refl _)]
          simp [cacheLookup]
        have hfresh₂ := resolveService_blueprint_fresh regs
          st'.scopedCaches.length fuel₂ ty
          { ({ st' with scopedCaches := st'.scopedCaches ++ [[]] } :
              ProviderState) with resolutionStack := [] } st'' v₂ r impl rfl
          hsing2 hscop2 hr hi hf himpl h₂
        have h3 : v₂ = st'.nextRef := hfresh₂.1
        omega

theorem claim_C3_witness :
    cacheLookup
      ({ singletonCache := [(GoType.iface 3 "S", 100)], scopedCaches := [[]],
         heap := [(100, ⟨GoType.ptrStruct 30 "*S" [], []⟩)], nextRef := 101,
         resolutionStack := [] } : ProviderState).singletonCache
      (GoType.iface 3 "S") = some 100 :=
  ((claim_C3_lifetime_caching
      [⟨.iface 3 "S", some (.ptrStruct 30 "*S" []), none, none, .Singleton⟩]
      0 4 (.iface 3 "S") exSt0
      { singletonCache := [(GoType.iface 3 "S", 100)], scopedCaches := [[]],
        heap := [(100, ⟨GoType.ptrStruct 30 "*S" [], []⟩)], nextRef := 101,
        resolutionStack := [] } 100
      ⟨.iface 3 "S", some (.ptrStruct 30 "*S" []), none, none, .Singleton⟩
      (by decide) (by decide) (by decide) rfl).1 rfl).1

end Syringe
